import Mathlib

/-!
# OpenRASP agent manager (`agent/php5/agent/openrasp_agent_manager.cc`)

A shallow embedding of `OpenraspAgentManager` and of the supervisor's signal
handler.  C++ strings are lists of characters, `pid_t`/`long` values are
integers (no arithmetic is performed on them, only comparisons), and every
call that leaves the process (signals, `fork`, shared-memory management, the
HTTP exchange) is appended to an event trace carried by the state.  A
signal is recorded when it is sent; what the host does with it, also when
the target is the sending process, is outside the embedding, which goes on
with the next statement.  A dereference of a null `agent_ctrl_block` makes
the embedded function return `none` (`Call.fault` for `startup`).

The supervisor loop never returns, so it is embedded as its loop body
(`supervisor_tick`), iterated over the answers of the host
(`supervisor_cycle` for one pass of the inner `for`, `supervisor_run` for
any number of outer iterations).  The SIGCHLD handler is run at the
`sleep(1)` of each pass, where the process waits.
-/

namespace OpenRasp

/-- A C++ `std::string` / C string, as its sequence of characters. -/
abbrev Str := List Char

/-! ## Data model -/

/-- Modelled from the spec: the shared-memory record `OpenraspCtrlBlock`
(declared in a header that is not part of the sources at hand).  It holds
the well-known process identifiers; the accessors below are its getters and
setters. -/
structure OpenraspCtrlBlock where
  master_pid : Int
  supervisor_id : Int
  log_agent_id : Int
  plugin_agent_id : Int
deriving DecidableEq, Repr

namespace OpenraspCtrlBlock

def get_master_pid (cb : OpenraspCtrlBlock) : Int := cb.master_pid

def set_master_pid (cb : OpenraspCtrlBlock) (pid : Int) : OpenraspCtrlBlock :=
  { cb with master_pid := pid }

def get_supervisor_id (cb : OpenraspCtrlBlock) : Int := cb.supervisor_id

def set_supervisor_id (cb : OpenraspCtrlBlock) (pid : Int) : OpenraspCtrlBlock :=
  { cb with supervisor_id := pid }

def get_log_agent_id (cb : OpenraspCtrlBlock) : Int := cb.log_agent_id

def set_log_agent_id (cb : OpenraspCtrlBlock) (pid : Int) : OpenraspCtrlBlock :=
  { cb with log_agent_id := pid }

def get_plugin_agent_id (cb : OpenraspCtrlBlock) : Int := cb.plugin_agent_id

def set_plugin_agent_id (cb : OpenraspCtrlBlock) (pid : Int) : OpenraspCtrlBlock :=
  { cb with plugin_agent_id := pid }

end OpenraspCtrlBlock

/-- The two concrete agent classes (`HeartBeatAgent`, `LogAgent`). -/
inductive AgentKind where
  | heartbeat
  | log
deriving DecidableEq, Repr

/-- The fields of `BaseAgent` that the manager reads and writes. -/
structure BaseAgent where
  kind : AgentKind
  is_alive : Bool
  agent_pid : Int
deriving DecidableEq, Repr

/-- The calls that leave the process, in the order they are issued. -/
inductive Event where
  /-- `kill(pid, SIGKILL)` -/
  | kill (pid : Int)
  /-- `fork()` issued for `agents[slot]`, with the value it returned -/
  | fork_agent (slot : Nat) (result : Int)
  /-- `agents[slot]->run()`, entered on the child side of a fork -/
  | agent_run (slot : Nat)
  /-- `fork()` issued for the supervisor, with the value it returned -/
  | fork_supervisor (result : Int)
  /-- `setsid()` on the child side of the supervisor fork -/
  | setsid
  /-- `shm_manager->create(SHMEM_SEC_CTRL_BLOCK, ...)` -/
  | shm_create
  /-- `shm_manager->destroy(SHMEM_SEC_CTRL_BLOCK)` -/
  | shm_destroy
  /-- `fetch_source_in_ip_packets(local_ip, ..., backend_url)` -/
  | fetch_source_in_ip_packets
  /-- `curl_easy_init()` -/
  | curl_easy_init
  /-- `perform_curl(curl, url, body, res_info)` -/
  | perform_curl (url body : Str)
  /-- entry into `agent_remote_register()` from the supervisor loop -/
  | agent_remote_register
  /-- entry into `check_work_processes_survival()` from the supervisor loop -/
  | check_work_processes_survival
  /-- `sleep(1)` -/
  | sleep
deriving DecidableEq, Repr

/-- The process image of one process running the manager: the members of
`OpenraspAgentManager` (and of `BaseManager`), the global `agents` vector and
the trace of calls issued so far. -/
structure State where
  initialized : Bool
  init_process_pid : Int
  has_registered : Bool
  rasp_id : Str
  local_ip : Str
  agent_ctrl_block : Option OpenraspCtrlBlock
  agents : List BaseAgent
  trace : List Event
deriving DecidableEq, Repr

/-- The configuration the code reads: the `openrasp_ini` fields, the member
constant `task_interval` and the two version strings (compile-time names
whose values are not part of the sources at hand). -/
structure Config where
  plugin_update_enable : Bool
  backend_url : Str
  root_dir : Str
  task_interval : Nat
  openrasp_php_version : Str
  php_openrasp_version : Str

/-- A decoded PHP value (`zval`), by type tag. -/
inductive Zval where
  | null
  | bool (b : Bool)
  | long (n : Int)
  | double (bits : Nat)
  | string (s : Str)
  | array (ht : List (Str × Zval))

/-- A PHP hash table with string keys. -/
abbrev HashTable := List (Str × Zval)

/-- The library routines the registration code calls and whose bodies are
not part of the sources at hand; the code is verified for every choice of
them. -/
structure Externals where
  md5sum : Str → Str
  php_json_encode : List (Str × Str) → Str
  php_json_decode : Str → Zval
  fetch_outmost_long_from_ht : HashTable → Str → Option Int
  fetch_outmost_string_from_ht : HashTable → Str → Option Str

/-- The `ResponseInfo` filled in by `perform_curl`. -/
structure ResponseInfo where
  res : Nat
  response_code : Int
  response_string : Str

/-- The libcurl result code for success. -/
def CURLE_OK : Nat := 0

/-- What the host answers during one registration attempt. -/
structure RegisterEnv where
  /-- the local address found by `fetch_source_in_ip_packets`, if any -/
  fetch_source_in_ip_packets : Option Str
  /-- the list filled in by `fetch_hw_addrs` -/
  fetch_hw_addrs : List Str
  /-- whether `curl_easy_init()` returned a handle -/
  curl_easy_init : Bool
  /-- the host name, or `none` when `gethostname` fails -/
  gethostname : Option Str
  /-- `sapi_module.name` -/
  sapi_name : Str
  /-- the backend, as a function of the request URL and body -/
  perform_curl : Str → Str → ResponseInfo

/-! ## Identity and registration -/

/-- The string hashed by `calculate_rasp_id`: every hardware address in
enumeration order, then the root directory. -/
def rasp_id_buf (hw_addrs : List Str) (root_dir : Str) : Str :=
  hw_addrs.foldl (fun buf hw_addr => buf ++ hw_addr) [] ++ root_dir

/-- `OpenraspAgentManager::calculate_rasp_id`. -/
def calculate_rasp_id (ext : Externals) (cfg : Config) (hw_addrs : List Str)
    (s : State) : Bool × State :=
  if hw_addrs.isEmpty then
    (false, s)
  else
    (true, { s with rasp_id := ext.md5sum (rasp_id_buf hw_addrs cfg.root_dir) })

/-- `OpenraspAgentManager::get_rasp_id`. -/
def get_rasp_id (s : State) : Str := s.rasp_id

/-- The associative array sent as the request body. -/
def register_body (cfg : Config) (env : RegisterEnv) (s : State) : List (Str × Str) :=
  let host_name : Str :=
    match env.gethostname with
    | some h => h
    | none => "UNKNOWN_HOST".toList
  [ ("id".toList, s.rasp_id),
    ("host_name".toList, host_name),
    ("language".toList, "PHP".toList),
    ("language_version".toList, cfg.openrasp_php_version),
    ("server_type".toList, env.sapi_name),
    ("server_version".toList, cfg.openrasp_php_version),
    ("rasp_home".toList, cfg.root_dir),
    ("local_ip".toList, s.local_ip),
    ("version".toList, cfg.php_openrasp_version) ]

/-- The interpretation of the backend's answer, lines 343-380 of the
source: the value returned by `agent_remote_register` once the exchange has
been performed. -/
def register_result (ext : Externals) (res_info : ResponseInfo) : Bool :=
  if res_info.res ≠ CURLE_OK then
    false
  else
    match ext.php_json_decode res_info.response_string with
    | Zval.array ht =>
      if 200 ≤ res_info.response_code ∧ res_info.response_code < 300 then
        match ext.fetch_outmost_long_from_ht ht "status".toList,
              ext.fetch_outmost_string_from_ht ht "description".toList with
        | some status, some _ => if status = 0 then true else false
        | _, _ => false
      else
        false
    | _ => false

/-- `OpenraspAgentManager::agent_remote_register`. -/
def agent_remote_register (ext : Externals) (cfg : Config) (env : RegisterEnv)
    (s : State) : Bool × State :=
  let s0 : State := { s with trace := s.trace ++ [Event.fetch_source_in_ip_packets] }
  let s1 : State :=
    match env.fetch_source_in_ip_packets with
    | some ip => { s0 with local_ip := ip }
    | none => { s0 with local_ip := [] }
  match calculate_rasp_id ext cfg env.fetch_hw_addrs s1 with
  | (false, s2) => (false, s2)
  | (true, s2) =>
    let s3 : State := { s2 with trace := s2.trace ++ [Event.curl_easy_init] }
    if env.curl_easy_init = false then
      (false, s3)
    else
      let url_string : Str := cfg.backend_url ++ "/v1/agent/rasp".toList
      let buf_json : Str := ext.php_json_encode (register_body cfg env s3)
      let res_info := env.perform_curl url_string buf_json
      let s4 : State := { s3 with trace := s3.trace ++ [Event.perform_curl url_string buf_json] }
      (register_result ext res_info, s4)

/-- The answer received by a registration attempt that reaches the HTTP
exchange: the backend applied to the URL and body the code builds. -/
def register_response (ext : Externals) (cfg : Config) (env : RegisterEnv)
    (s : State) : ResponseInfo :=
  let ip : Str := match env.fetch_source_in_ip_packets with
    | some ip => ip
    | none => []
  let s3 : State :=
    { s with local_ip := ip,
             rasp_id := ext.md5sum (rasp_id_buf env.fetch_hw_addrs cfg.root_dir) }
  env.perform_curl (cfg.backend_url ++ "/v1/agent/rasp".toList)
    (ext.php_json_encode (register_body cfg env s3))

/-! ## The process table and `search_fpm_master_pid` -/

/-- One name listed under `/proc`, with what the code can read of it. -/
structure ProcEntry where
  /-- the file name returned by the directory scan -/
  name : Str
  /-- whether `stat` succeeds on it and reports a directory (the filter
  handed to `openrasp_scandir`) -/
  is_dir : Bool
  /-- the first line of `/proc/<name>/stat`, `none` when the file cannot be
  accessed -/
  stat_line : Option Str
  /-- the first line of `/proc/<name>/cmdline`, empty when unreadable -/
  cmdline : Str
deriving DecidableEq, Repr

/-- The C `isspace` classes in the default locale. -/
def isspace (c : Char) : Bool :=
  c.toNat = 32 || (9 ≤ c.toNat && c.toNat ≤ 13)

/-- The value of a decimal digit, if the character is one. -/
def digit_value (c : Char) : Option Nat :=
  if 48 ≤ c.toNat ∧ c.toNat ≤ 57 then some (c.toNat - 48) else none

/-- The number spelled by the leading decimal digits, continuing from `acc`. -/
def leading_digits : Str → Nat → Nat
  | [], acc => acc
  | c :: cs, acc =>
    match digit_value c with
    | some d => leading_digits cs (acc * 10 + d)
    | none => acc

/-- C `strtol(s, NULL, 10)` on a 64-bit `long`: optional white space,
an optional sign, the leading digits, the result clamped to the range of
`long`. -/
def strtol (s : Str) : Int :=
  let s1 := s.dropWhile isspace
  let v : Int :=
    match s1 with
    | '-' :: r => - (leading_digits r 0 : Int)
    | '+' :: r => (leading_digits r 0 : Int)
    | _ => (leading_digits s1 0 : Int)
  if v < -(2 ^ 63) then -(2 ^ 63)
  else if 2 ^ 63 - 1 < v then 2 ^ 63 - 1
  else v

/-- C `atoi`: `strtol` converted to a 32-bit `int`. -/
def atoi (s : Str) : Int :=
  (strtol s + 2 ^ 31) % 2 ^ 32 - 2 ^ 31

/-- An input string stream: the characters not yet read and whether the
stream is still `good()`. -/
structure IStream where
  buf : Str
  good : Bool
deriving DecidableEq, Repr

/-- `std::getline(stream, item, delim)`: on a stream that is no longer good
the item is left as it was; otherwise the item becomes the characters up to
the delimiter, which is consumed, or up to the end of the stream, which
then stops being good. -/
def getline (st : IStream) (item : Str) (delim : Char) : IStream × Str :=
  if st.good = false then
    (st, item)
  else
    match st.buf.span (fun c => c != delim) with
    | (tok, []) => ({ buf := [], good := false }, tok)
    | (tok, _ :: rest) => ({ buf := rest, good := true }, tok)

/-- The loop `for (i = 0; i < n; ++i) std::getline(stat_items, item, ' ')`. -/
def getline_times : Nat → IStream → Str → IStream × Str
  | 0, st, item => (st, item)
  | n + 1, st, item =>
    let r := getline st item ' '
    getline_times n r.1 r.2

/-- The `item` left by four `getline` calls on the stat line. -/
def fourth_item (stat_line : Str) : Str :=
  (getline_times 4 { buf := stat_line, good := true } []).2

/-- `std::string::find(needle)`, searching `hay` from offset `pos` on: the
offset of the first occurrence, `none` for `npos`. -/
def str_find (needle : Str) : Str → Nat → Option Nat
  | [], pos => if needle.isEmpty then some pos else none
  | c :: cs, pos =>
    if needle.isPrefixOf (c :: cs) then some pos else str_find needle cs (pos + 1)

/-- The command-line signature of the fpm master process. -/
def fpm_master_signature : Str := "php-fpm: master process".toList

/-- The loop of `search_fpm_master_pid` over the scanned names. -/
def search_fpm_master_pid_loop (init_process_pid : Int) : List ProcEntry → Int
  | [] => 0
  | e :: processes =>
    match e.stat_line with
    | none => search_fpm_master_pid_loop init_process_pid processes
    | some stat_line =>
      if stat_line.isEmpty then
        search_fpm_master_pid_loop init_process_pid processes
      else
        let ppid := atoi (fourth_item stat_line)
        if ppid = init_process_pid then
          if str_find fpm_master_signature e.cmdline 0 = some 0 then
            atoi e.name
          else
            search_fpm_master_pid_loop init_process_pid processes
        else
          search_fpm_master_pid_loop init_process_pid processes

/-- `OpenraspAgentManager::search_fpm_master_pid`, on the listing of
`/proc`. -/
def search_fpm_master_pid (init_process_pid : Int) (proc : List ProcEntry) : Int :=
  search_fpm_master_pid_loop init_process_pid (proc.filter (fun e => e.is_dir))

/-- The parent identifier the code reads from an entry: the fourth
blank-separated item of its stat line, when the entry is a directory whose
stat line is readable and not empty. -/
def parent_id (e : ProcEntry) : Option Int :=
  if e.is_dir then
    match e.stat_line with
    | some l => if l.isEmpty then none else some (atoi (fourth_item l))
    | none => none
  else
    none

/-- The entry is a child of `init_process_pid`. -/
def is_child_of (init_process_pid : Int) (e : ProcEntry) : Prop :=
  parent_id e = some init_process_pid

instance (init_process_pid : Int) (e : ProcEntry) : Decidable (is_child_of init_process_pid e) :=
  inferInstanceAs (Decidable (parent_id e = some init_process_pid))

/-- The entry's command line starts with the master-process signature. -/
def has_master_signature (e : ProcEntry) : Prop :=
  fpm_master_signature <+: e.cmdline

instance (e : ProcEntry) : Decidable (has_master_signature e) :=
  inferInstanceAs (Decidable (fpm_master_signature <+: e.cmdline))

/-- The process identifier an entry stands for: its name read as a number. -/
def entry_pid (e : ProcEntry) : Int := atoi e.name

/-! ## Startup and shutdown -/

/-- How a call of the manager ends. -/
inductive Call (α : Type) where
  /-- the call returned `value`, leaving the process in state `s` -/
  | returned (value : α) (s : State)
  /-- the call entered `supervisor_run` in state `s`, which never returns -/
  | supervising (s : State)
  /-- a null `agent_ctrl_block` was dereferenced -/
  | fault

/-- What the host answers during `startup`. -/
structure StartupEnv where
  getpid : Int
  check_sapi_need_alloc_shm : Bool
  /-- the section handed out by `shm_manager->create`, `none` for a null
  pointer -/
  shm_create : Option OpenraspCtrlBlock
  /-- the value returned by `fork()` -/
  fork : Int

/-- What the host answers during `shutdown`. -/
structure ShutdownEnv where
  getpid : Int
  /-- `sapi_module.name` -/
  sapi_name : Str
  /-- the listing of `/proc` -/
  proc : List ProcEntry

/-- `OpenraspAgentManager::create_share_memory`. -/
def create_share_memory (shm_block : Option OpenraspCtrlBlock) (s : State) : Bool × State :=
  let s1 : State := { s with trace := s.trace ++ [Event.shm_create] }
  match shm_block with
  | some cb => (true, { s1 with agent_ctrl_block := some cb })
  | none => (false, s1)

/-- `OpenraspAgentManager::destroy_share_memory`. -/
def destroy_share_memory (s : State) : Bool × State :=
  (true, { s with agent_ctrl_block := none, trace := s.trace ++ [Event.shm_destroy] })

/-- Modelled from the spec: a freshly constructed agent (the `BaseAgent`
constructor is not part of the sources at hand) is not alive and has no
process identifier yet. -/
def new_agent (kind : AgentKind) : BaseAgent :=
  { kind := kind, is_alive := false, agent_pid := 0 }

/-- `OpenraspAgentManager::process_agent_startup`. -/
def process_agent_startup (cfg : Config) (fork : Int) (s : State) : Call Bool :=
  let s1 : State :=
    if cfg.plugin_update_enable then
      { s with agents := s.agents ++ [new_agent AgentKind.heartbeat] }
    else s
  let s2 : State := { s1 with agents := s1.agents ++ [new_agent AgentKind.log] }
  let s3 : State := { s2 with trace := s2.trace ++ [Event.fork_supervisor fork] }
  if fork < 0 then
    Call.returned false s3
  else if fork = 0 then
    Call.supervising { s3 with trace := s3.trace ++ [Event.setsid] }
  else
    match s3.agent_ctrl_block with
    | none => Call.fault
    | some cb =>
      Call.returned true { s3 with agent_ctrl_block := some (cb.set_supervisor_id fork) }

/-- `OpenraspAgentManager::startup`. -/
def startup (cfg : Config) (env : StartupEnv) (s : State) : Call Bool :=
  let s1 : State := { s with init_process_pid := env.getpid }
  if env.check_sapi_need_alloc_shm then
    match create_share_memory env.shm_create s1 with
    | (false, s2) => Call.returned false s2
    | (true, s2) =>
      match s2.agent_ctrl_block with
      | none => Call.fault
      | some cb =>
        let s3 : State :=
          { s2 with agent_ctrl_block := some (cb.set_master_pid s2.init_process_pid) }
        match process_agent_startup cfg env.fork s3 with
        | Call.returned _ s4 => Call.returned true { s4 with initialized := true }
        | Call.supervising s4 => Call.supervising s4
        | Call.fault => Call.fault
  else
    Call.returned true s1

/-- The signals sent by `process_agent_shutdown` for a control block. -/
def shutdown_kills (cfg : Config) (cb : OpenraspCtrlBlock) : List Event :=
  (if cb.get_log_agent_id > 0 then [Event.kill cb.get_log_agent_id] else [])
  ++ (if cfg.plugin_update_enable then
        (if cb.get_plugin_agent_id > 0 then [Event.kill cb.get_plugin_agent_id] else [])
      else [])
  ++ (if cb.get_supervisor_id > 0 then [Event.kill cb.get_supervisor_id] else [])

/-- `OpenraspAgentManager::process_agent_shutdown`. -/
def process_agent_shutdown (cfg : Config) (s : State) : Option State :=
  let s1 : State := { s with agents := [] }
  match s1.agent_ctrl_block with
  | none => none
  | some cb => some { s1 with trace := s1.trace ++ shutdown_kills cfg cb }

/-- The control block after the master-pid correction of `shutdown`. -/
def corrected_block (env : ShutdownEnv) (s : State) (cb : OpenraspCtrlBlock) :
    OpenraspCtrlBlock :=
  if env.sapi_name = "fpm-fcgi".toList then
    let fpm_master_pid := search_fpm_master_pid s.init_process_pid env.proc
    if fpm_master_pid ≠ 0 then cb.set_master_pid fpm_master_pid else cb
  else cb

/-- `OpenraspAgentManager::shutdown`. -/
def shutdown (cfg : Config) (env : ShutdownEnv) (s : State) : Option (Bool × State) :=
  if s.initialized then
    match s.agent_ctrl_block with
    | none => none
    | some cb =>
      let cb1 := corrected_block env s cb
      let s1 : State := { s with agent_ctrl_block := some cb1 }
      if cb1.get_master_pid ≠ 0 ∧ env.getpid ≠ cb1.get_master_pid then
        some (true, s1)
      else
        match process_agent_shutdown cfg s1 with
        | none => none
        | some s2 =>
          let s3 := (destroy_share_memory s2).2
          some (true, { s3 with initialized := false })
  else
    some (true, s)

/-! ## The supervisor -/

/-- The inner loop of `supervisor_sigchld_handler` for one reaped pid. -/
def mark_agents_dead (p : Int) (agents : List BaseAgent) : List BaseAgent :=
  agents.map (fun a => if p = a.agent_pid then { a with is_alive := false } else a)

/-- `supervisor_sigchld_handler`, given the values the successive
`waitpid(-1, &status, WNOHANG)` calls return (an exhausted list stands for
"no further child"). -/
def supervisor_sigchld_handler : List Int → List BaseAgent → List BaseAgent
  | [], agents => agents
  | p :: ws, agents =>
    if p > 0 then supervisor_sigchld_handler ws (mark_agents_dead p agents) else agents

/-- Modelled from the spec: `write_pid_to_shm`, the virtual method of the
agent classes (their sources are not at hand), records the pid in the
control-block field of the agent's kind. -/
def write_pid_to_shm (kind : AgentKind) (pid : Int) (cb : OpenraspCtrlBlock) :
    OpenraspCtrlBlock :=
  match kind with
  | AgentKind.heartbeat => cb.set_plugin_agent_id pid
  | AgentKind.log => cb.set_log_agent_id pid

/-- The control-block field belonging to an agent kind. -/
def agent_id_of (kind : AgentKind) (cb : OpenraspCtrlBlock) : Int :=
  match kind with
  | AgentKind.heartbeat => cb.get_plugin_agent_id
  | AgentKind.log => cb.get_log_agent_id

/-- What one run of the respawn loop leaves behind. -/
structure CheckResult where
  agents : List BaseAgent
  block : Option OpenraspCtrlBlock
  events : List Event
  forks : Nat
deriving DecidableEq, Repr

/-- The loop of `check_work_processes_survival` from slot `i` on, over the
agents not yet visited; `k` counts the `fork()` calls made so far and
`fork k` is the value the next one returns.  On the child side (`fork`
returned 0) the agent body is entered and the loop goes on once it comes
back. -/
def check_loop (fork : Nat → Int) :
    Nat → Nat → Option OpenraspCtrlBlock → List BaseAgent → Option CheckResult
  | _, k, block, [] => some { agents := [], block := block, events := [], forks := k }
  | i, k, block, a :: rest =>
    if a.is_alive = false then
      let pid := fork k
      if pid = 0 then
        match check_loop fork (i + 1) (k + 1) block rest with
        | none => none
        | some r =>
          some { r with agents := a :: r.agents,
                        events := Event.fork_agent i pid :: Event.agent_run i :: r.events }
      else if pid > 0 then
        match block with
        | none => none
        | some cb =>
          match check_loop fork (i + 1) (k + 1) (some (write_pid_to_shm a.kind pid cb)) rest with
          | none => none
          | some r =>
            some { r with agents := { a with is_alive := true, agent_pid := pid } :: r.agents,
                          events := Event.fork_agent i pid :: r.events }
      else
        match check_loop fork (i + 1) (k + 1) block rest with
        | none => none
        | some r =>
          some { r with agents := a :: r.agents, events := Event.fork_agent i pid :: r.events }
    else
      match check_loop fork (i + 1) k block rest with
      | none => none
      | some r => some { r with agents := a :: r.agents }

/-- `OpenraspAgentManager::check_work_processes_survival`. -/
def check_work_processes_survival (fork : Nat → Int) (s : State) : Option State :=
  match check_loop fork 0 0 s.agent_ctrl_block s.agents with
  | none => none
  | some r =>
    some { s with agents := r.agents, agent_ctrl_block := r.block, trace := s.trace ++ r.events }

/-- The number of agents before slot `j` that are not alive: the number of
`fork()` calls a liveness scan makes before it reaches slot `j`. -/
def forks_before (agents : List BaseAgent) (j : Nat) : Nat :=
  (agents.take j).countP (fun a => !a.is_alive)

/-- The outcome of `VCWD_STAT` on a `/proc` path. -/
inductive StatResult where
  /-- the call returned 0 -/
  | found
  /-- the call returned -1 with `errno == ENOENT` -/
  | enoent
  /-- the call returned -1 with another `errno` -/
  | failed
deriving DecidableEq, Repr

/-- What the host answers during one pass through the body of the inner
loop of `supervisor_run`. -/
structure TickEnv where
  register : RegisterEnv
  /-- the value returned by the k-th `fork()` of the liveness scan -/
  fork : Nat → Int
  /-- the `waitpid` results seen by the SIGCHLD handler while the process
  sleeps -/
  waitpid : List Int
  /-- the outcome of `stat` on `/proc/<pid>` -/
  stat_proc : Int → StatResult

/-- The registration step of the loop body: `has_registered =
agent_remote_register()` when `i` is a multiple of `task_interval` and the
manager has not registered yet. -/
def register_step (ext : Externals) (cfg : Config) (env : TickEnv) (i : Nat)
    (s : State) : State :=
  if i % cfg.task_interval = 0 ∧ s.has_registered = false then
    let r := agent_remote_register ext cfg env.register
      { s with trace := s.trace ++ [Event.agent_remote_register] }
    { r.2 with has_registered := r.1 }
  else s

/-- The liveness step of the loop body. -/
def survival_step (env : TickEnv) (i : Nat) (s : State) : Option State :=
  if i % 10 = 0 ∧ s.has_registered = true then
    check_work_processes_survival env.fork
      { s with trace := s.trace ++ [Event.check_work_processes_survival] }
  else some s

/-- The rest of the loop body: `sleep(1)`, during which the SIGCHLD handler
may run, then the test for the master's `/proc` entry. -/
def master_step (cfg : Config) (env : TickEnv) (s : State) : Option State :=
  let s1 : State :=
    { s with trace := s.trace ++ [Event.sleep],
             agents := supervisor_sigchld_handler env.waitpid s.agents }
  match s1.agent_ctrl_block with
  | none => none
  | some cb =>
    if env.stat_proc cb.get_master_pid = StatResult.enoent then
      process_agent_shutdown cfg s1
    else some s1

/-- One pass through the body of the inner `for` loop of `supervisor_run`,
with loop counter `i`. -/
def supervisor_tick (ext : Externals) (cfg : Config) (env : TickEnv) (i : Nat)
    (s : State) : Option State :=
  match survival_step env i (register_step ext cfg env i s) with
  | none => none
  | some s2 => master_step cfg env s2

/-- A sequence of passes through the loop body, each with its loop counter. -/
def supervisor_ticks (ext : Externals) (cfg : Config) :
    List (TickEnv × Nat) → State → Option State
  | [], s => some s
  | t :: ts, s =>
    match supervisor_tick ext cfg t.1 t.2 s with
    | none => none
    | some s1 => supervisor_ticks ext cfg ts s1

/-- The passes of one outer cycle: `for (int i = 0; i < task_interval; ++i)`. -/
def cycle_ticks (cfg : Config) (envs : Nat → TickEnv) : List (TickEnv × Nat) :=
  (List.range cfg.task_interval).map (fun i => (envs i, i))

/-- One iteration of the `while (true)` loop of `supervisor_run`. -/
def supervisor_cycle (ext : Externals) (cfg : Config) (envs : Nat → TickEnv)
    (s : State) : Option State :=
  supervisor_ticks ext cfg (cycle_ticks cfg envs) s

/-- The first `n` iterations of the `while (true)` loop of `supervisor_run`,
the c-th of them answered by `envs c`. -/
def supervisor_run (ext : Externals) (cfg : Config) (envs : Nat → Nat → TickEnv) :
    Nat → Nat → State → Option State
  | 0, _, s => some s
  | n + 1, c, s =>
    match supervisor_cycle ext cfg (envs c) s with
    | none => none
    | some s1 => supervisor_run ext cfg envs n (c + 1) s1

/-- The number of liveness scans recorded in a trace. -/
def scans (t : List Event) : Nat :=
  t.count Event.check_work_processes_survival

/-- Whether the event is a `fork()` issued for an agent. -/
def Event.is_fork_agent : Event → Bool
  | Event.fork_agent _ _ => true
  | _ => false

/-- Whether the event is a `fork()` issued for the agent in `slot`. -/
def Event.is_fork_of (slot : Nat) : Event → Bool
  | Event.fork_agent j _ => j = slot
  | _ => false

/-- The number of agent forks recorded in a trace. -/
def agent_forks (t : List Event) : Nat :=
  t.countP Event.is_fork_agent

/-- The number of `shm_manager->destroy` calls recorded in a trace. -/
def destroys (t : List Event) : Nat :=
  t.count Event.shm_destroy

/-- The passes of the outer iterations `c`, `c + 1`, ..., `c + n - 1`, in
order. -/
def run_ticks (cfg : Config) (envs : Nat → Nat → TickEnv) : Nat → Nat → List (TickEnv × Nat)
  | 0, _ => []
  | n + 1, c => cycle_ticks cfg (envs c) ++ run_ticks cfg envs n (c + 1)

/-- The state invariant of the manager: an initialized manager holds a
control block. -/
def State.wf (s : State) : Prop :=
  s.initialized = true → s.agent_ctrl_block ≠ none

/-- The state of a manager right after construction. -/
def State.init : State :=
  { initialized := false, init_process_pid := 0, has_registered := false,
    rasp_id := [], local_ip := [], agent_ctrl_block := none, agents := [], trace := [] }

/-- The invariant of a control block in use: its master pid, stored by
`startup` (the caller's own pid) and overwritten by the fpm correction with
non-zero pids only, is not 0; and its heartbeat-agent field holds a pid only
when plugin update is enabled, heartbeat agents existing only then. -/
def block_ok (cfg : Config) (cb : OpenraspCtrlBlock) : Prop :=
  cb.master_pid ≠ 0 ∧ (cfg.plugin_update_enable = false → cb.plugin_agent_id ≤ 0)

/-- The invariant of the agent set: it holds a heartbeat agent only when
plugin update is enabled. -/
def agents_ok (cfg : Config) (agents : List BaseAgent) : Prop :=
  cfg.plugin_update_enable = false → ∀ a ∈ agents, a.kind ≠ AgentKind.heartbeat

/-- The state invariant of a started manager: it holds a control block that
satisfies `block_ok`. -/
def State.block_inv (cfg : Config) (s : State) : Prop :=
  s.initialized = true → ∃ cb, s.agent_ctrl_block = some cb ∧ block_ok cfg cb

/-! ## Sample inputs

Concrete hosts, configurations and states on which the definitions are
evaluated. -/

/-- A well-formed answer of the backend, as the sample decoder reads it. -/
def sample_ok_answer : Str := "status=0;description=ok".toList

/-- A stand-in for the library routines: the digest reverses its input, the
encoder joins the fields, the decoder knows the one well-formed answer. -/
def sample_externals : Externals :=
  { md5sum := fun buf => buf.reverse
    php_json_encode := fun fields =>
      (fields.map (fun f => f.1 ++ "=".toList ++ f.2 ++ ";".toList)).flatten
    php_json_decode := fun body =>
      if body = sample_ok_answer then
        Zval.array [("status".toList, Zval.long 0), ("description".toList, Zval.string "ok".toList)]
      else Zval.null
    fetch_outmost_long_from_ht := fun ht key =>
      match ht.lookup key with
      | some (Zval.long n) => some n
      | _ => none
    fetch_outmost_string_from_ht := fun ht key =>
      match ht.lookup key with
      | some (Zval.string v) => some v
      | _ => none }

/-- A configuration with the heartbeat agent enabled and an outer cycle of
eleven passes. -/
def sample_config : Config :=
  { plugin_update_enable := true
    backend_url := "http://backend".toList
    root_dir := "/opt/rasp".toList
    task_interval := 11
    openrasp_php_version := "5.6".toList
    php_openrasp_version := "1.0".toList }

/-- A host with one hardware address whose backend accepts the registration. -/
def sample_register_env : RegisterEnv :=
  { fetch_source_in_ip_packets := some "10.0.0.2".toList
    fetch_hw_addrs := ["00:11:22:33:44:55".toList]
    curl_easy_init := true
    gethostname := some "web1".toList
    sapi_name := "fpm-fcgi".toList
    perform_curl := fun _ _ =>
      { res := CURLE_OK, response_code := 200, response_string := sample_ok_answer } }

/-- A host without any hardware address. -/
def sample_register_env_no_hw : RegisterEnv :=
  { sample_register_env with fetch_hw_addrs := [] }

/-- A listing of `/proc`: a directory that is no process, a pool worker and
the fpm master, both children of process 100, and a process with another
parent. -/
def sample_proc : List ProcEntry :=
  [ { name := "sys".toList, is_dir := true, stat_line := none, cmdline := [] },
    { name := "4321".toList, is_dir := true,
      stat_line := some "4321 (php-fpm) S 100 4321 4321 0 -1".toList,
      cmdline := "php-fpm: pool www".toList },
    { name := "4242".toList, is_dir := true,
      stat_line := some "4242 (php-fpm) S 100 4242 4242 0 -1".toList,
      cmdline := "php-fpm: master process (/etc/php-fpm.conf)".toList },
    { name := "77".toList, is_dir := true,
      stat_line := some "77 (php-fpm) S 1 77 77 0 -1".toList,
      cmdline := "php-fpm: master process (/etc/other.conf)".toList } ]

/-- The fpm master of the sample listing. -/
def sample_master_entry : ProcEntry :=
  { name := "4242".toList, is_dir := true,
    stat_line := some "4242 (php-fpm) S 100 4242 4242 0 -1".toList,
    cmdline := "php-fpm: master process (/etc/php-fpm.conf)".toList }

/-- A control block naming master 100, supervisor 31, log agent 32 and
heartbeat agent 33. -/
def sample_block : OpenraspCtrlBlock :=
  { master_pid := 100, supervisor_id := 31, log_agent_id := 32, plugin_agent_id := 33 }

/-- A host on which shared memory is available but `fork()` fails. -/
def sample_startup_env_fork_fails : StartupEnv :=
  { getpid := 100, check_sapi_need_alloc_shm := true,
    shm_create := some { master_pid := 0, supervisor_id := 0, log_agent_id := 0,
                         plugin_agent_id := 0 },
    fork := -1 }

/-- A started manager whose agents run. -/
def sample_started : State :=
  { initialized := true, init_process_pid := 100, has_registered := false,
    rasp_id := [], local_ip := [], agent_ctrl_block := some sample_block,
    agents := [new_agent AgentKind.heartbeat, new_agent AgentKind.log], trace := [] }

/-- The master process 100 of a command-line host calls `shutdown`. -/
def sample_shutdown_env : ShutdownEnv :=
  { getpid := 100, sapi_name := "cli".toList, proc := [] }

/-- A worker process 555 of an fpm host calls `shutdown`. -/
def sample_shutdown_env_worker : ShutdownEnv :=
  { getpid := 555, sapi_name := "fpm-fcgi".toList, proc := sample_proc }

/-- A supervisor whose heartbeat agent runs as process 33 and whose log
agent is not alive. -/
def sample_supervisor : State :=
  { initialized := false, init_process_pid := 100, has_registered := true,
    rasp_id := [], local_ip := [], agent_ctrl_block := some sample_block,
    agents := [ { kind := AgentKind.heartbeat, is_alive := true, agent_pid := 33 },
                { kind := AgentKind.log, is_alive := false, agent_pid := 32 } ],
    trace := [] }

/-- A host on which every `fork()` of the scan returns pid 40. -/
def sample_fork : Nat → Int := fun _ => 40

/-- A supervisor that has not registered and whose two agents are not
alive. -/
def sample_unregistered : State :=
  { initialized := false, init_process_pid := 100, has_registered := false,
    rasp_id := [], local_ip := [], agent_ctrl_block := some sample_block,
    agents := [new_agent AgentKind.heartbeat, new_agent AgentKind.log], trace := [] }

/-- A pass during which the master is alive, no child dies, and the host
has no hardware address. -/
def sample_tick_env : TickEnv :=
  { register := sample_register_env_no_hw, fork := sample_fork, waitpid := [],
    stat_proc := fun _ => StatResult.found }

/-- A pass during which the `/proc` entry of the master is gone. -/
def sample_tick_env_master_gone : TickEnv :=
  { register := sample_register_env, fork := sample_fork, waitpid := [],
    stat_proc := fun _ => StatResult.enoent }

/-! ## Identity and registration: theorems -/

theorem foldl_append_eq_flatten (l : List Str) (acc : Str) :
    l.foldl (fun buf hw_addr => buf ++ hw_addr) acc = acc ++ l.flatten := by
  induction l generalizing acc with
  | nil => simp
  | cons x xs ih => simp [List.foldl_cons, ih, List.append_assoc]

theorem rasp_id_buf_eq (hw_addrs : List Str) (root_dir : Str) :
    rasp_id_buf hw_addrs root_dir = hw_addrs.flatten ++ root_dir := by
  simp [rasp_id_buf, foldl_append_eq_flatten]

theorem calculate_rasp_id_nonempty (ext : Externals) (cfg : Config) (hw_addrs : List Str)
    (s : State) (h : hw_addrs ≠ []) :
    calculate_rasp_id ext cfg hw_addrs s
      = (true, { s with rasp_id := ext.md5sum (hw_addrs.flatten ++ cfg.root_dir) }) := by
  cases hw_addrs with
  | nil => exact absurd rfl h
  | cons x xs => simp [calculate_rasp_id, rasp_id_buf_eq]

theorem agent_remote_register_result (ext : Externals) (cfg : Config) (env : RegisterEnv)
    (s : State) (h_id : env.fetch_hw_addrs ≠ []) (h_curl : env.curl_easy_init = true) :
    (agent_remote_register ext cfg env s).1
      = register_result ext (register_response ext cfg env s) := by
  obtain ⟨x, xs, hx⟩ : ∃ x xs, env.fetch_hw_addrs = x :: xs := by
    cases h : env.fetch_hw_addrs with
    | nil => exact absurd h h_id
    | cons x xs => exact ⟨x, xs, rfl⟩
  unfold agent_remote_register register_response
  cases hip : env.fetch_source_in_ip_packets <;>
    simp [calculate_rasp_id, hx, h_curl, register_body]

theorem register_result_true_iff (ext : Externals) (r : ResponseInfo) :
    register_result ext r = true ↔
      r.res = CURLE_OK ∧ 200 ≤ r.response_code ∧ r.response_code ≤ 299
      ∧ ∃ ht status description,
          ext.php_json_decode r.response_string = Zval.array ht
          ∧ ext.fetch_outmost_long_from_ht ht "status".toList = some status
          ∧ ext.fetch_outmost_string_from_ht ht "description".toList = some description
          ∧ status = 0 := by
  unfold register_result
  constructor
  · intro h
    by_cases hres : r.res = CURLE_OK
    · simp only [hres, ne_eq, not_true_eq_false, if_false] at h
      cases hdec : ext.php_json_decode r.response_string with
      | array ht =>
        rw [hdec] at h
        simp only at h
        by_cases hcode : 200 ≤ r.response_code ∧ r.response_code < 300
        · rw [if_pos hcode] at h
          cases hl : ext.fetch_outmost_long_from_ht ht "status".toList with
          | none => rw [hl] at h; simp at h
          | some status =>
            cases hs : ext.fetch_outmost_string_from_ht ht "description".toList with
            | none => rw [hl, hs] at h; simp at h
            | some d =>
              rw [hl, hs] at h
              simp only at h
              by_cases h0 : status = 0
              · exact ⟨hres, hcode.1, by omega, ht, status, d, rfl, hl, hs, h0⟩
              · rw [if_neg h0] at h; cases h
        · rw [if_neg hcode] at h; cases h
      | null => rw [hdec] at h; cases h
      | bool b => rw [hdec] at h; cases h
      | long n => rw [hdec] at h; cases h
      | double b => rw [hdec] at h; cases h
      | string v => rw [hdec] at h; cases h
    · simp only [ne_eq, hres, not_false_eq_true, if_true] at h
      cases h
  · rintro ⟨hres, h1, h2, ht, status, d, hdec, hl, hs, h0⟩
    have hcode : 200 ≤ r.response_code ∧ r.response_code < 300 := ⟨h1, by omega⟩
    simp only [hres, ne_eq, not_true_eq_false, if_false, hdec, hcode, and_self, if_true, hl, hs,
      h0]

/-- C1: once the identity is computed and the HTTP client is created,
`agent_remote_register` returns true exactly when the transport succeeded
(`CURLE_OK`), the response code lies in 200..299, the body decodes to an
array from which a long `status` and a string `description` are fetched,
and `status` is 0; in every other case it returns false. -/
theorem agent_remote_register_true_iff (ext : Externals) (cfg : Config)
    (env : RegisterEnv) (s : State)
    (h_id : env.fetch_hw_addrs ≠ []) (h_curl : env.curl_easy_init = true) :
    ((agent_remote_register ext cfg env s).1 = true ↔
      (register_response ext cfg env s).res = CURLE_OK
      ∧ 200 ≤ (register_response ext cfg env s).response_code
      ∧ (register_response ext cfg env s).response_code ≤ 299
      ∧ ∃ ht status description,
          ext.php_json_decode (register_response ext cfg env s).response_string = Zval.array ht
          ∧ ext.fetch_outmost_long_from_ht ht "status".toList = some status
          ∧ ext.fetch_outmost_string_from_ht ht "description".toList = some description
          ∧ status = 0)
    ∧ ((agent_remote_register ext cfg env s).1 = false ↔
      ¬ ((register_response ext cfg env s).res = CURLE_OK
      ∧ 200 ≤ (register_response ext cfg env s).response_code
      ∧ (register_response ext cfg env s).response_code ≤ 299
      ∧ ∃ ht status description,
          ext.php_json_decode (register_response ext cfg env s).response_string = Zval.array ht
          ∧ ext.fetch_outmost_long_from_ht ht "status".toList = some status
          ∧ ext.fetch_outmost_string_from_ht ht "description".toList = some description
          ∧ status = 0)) := by
  have hiff := register_result_true_iff ext (register_response ext cfg env s)
  rw [agent_remote_register_result ext cfg env s h_id h_curl]
  refine ⟨hiff, ?_⟩
  rw [← hiff]
  cases register_result ext (register_response ext cfg env s) <;> simp

/-- The sample backend accepts the sample registration. -/
theorem agent_remote_register_true_iff_witness :
    (agent_remote_register sample_externals sample_config sample_register_env State.init).1
      = true := by
  have h := agent_remote_register_true_iff sample_externals sample_config
    sample_register_env State.init (by decide) (by decide)
  refine h.1.2 ⟨rfl, by decide, by decide, ?_⟩
  exact ⟨[("status".toList, Zval.long 0), ("description".toList, Zval.string "ok".toList)],
    0, "ok".toList, rfl, rfl, rfl, rfl⟩

/-- C10: for a non-empty list of hardware addresses and any root path,
`calculate_rasp_id` returns true and sets `rasp_id` to the digest of the
addresses concatenated in enumeration order followed by the root path,
whatever identifier was stored before; it touches no other field, and
running it again on its own result changes nothing. -/
theorem calculate_rasp_id_deterministic (ext : Externals) (cfg : Config)
    (hw_addrs : List Str) (s t : State) (h : hw_addrs ≠ []) :
    (calculate_rasp_id ext cfg hw_addrs s).1 = true
    ∧ (calculate_rasp_id ext cfg hw_addrs s).2.rasp_id
        = ext.md5sum (hw_addrs.flatten ++ cfg.root_dir)
    ∧ (calculate_rasp_id ext cfg hw_addrs t).2.rasp_id
        = (calculate_rasp_id ext cfg hw_addrs s).2.rasp_id
    ∧ (calculate_rasp_id ext cfg hw_addrs s).2
        = { s with rasp_id := ext.md5sum (hw_addrs.flatten ++ cfg.root_dir) }
    ∧ calculate_rasp_id ext cfg hw_addrs (calculate_rasp_id ext cfg hw_addrs s).2
        = calculate_rasp_id ext cfg hw_addrs s := by
  simp [calculate_rasp_id_nonempty ext cfg hw_addrs _ h]

/-- The identifier of the sample host, computed from two addresses. -/
theorem calculate_rasp_id_deterministic_witness :
    (calculate_rasp_id sample_externals sample_config ["ab".toList, "cd".toList]
        State.init).2.rasp_id
      = sample_externals.md5sum "abcd/opt/rasp".toList := by
  have h := calculate_rasp_id_deterministic sample_externals sample_config
    ["ab".toList, "cd".toList] State.init State.init (by decide)
  exact h.2.1

/-! ## `search_fpm_master_pid`: theorems -/

theorem str_find_ge (needle : Str) (hay : Str) (pos q : Nat)
    (h : str_find needle hay pos = some q) : pos ≤ q := by
  induction hay generalizing pos with
  | nil =>
    unfold str_find at h
    split at h
    · cases h; exact le_refl _
    · cases h
  | cons c cs ih =>
    unfold str_find at h
    split at h
    · cases h; exact le_refl _
    · exact le_trans (Nat.le_succ pos) (ih (pos + 1) h)

theorem str_find_eq_start_iff (needle hay : Str) (pos : Nat) :
    str_find needle hay pos = some pos ↔ needle <+: hay := by
  cases hay with
  | nil =>
    unfold str_find
    cases needle with
    | nil => simp
    | cons x xs => simp
  | cons c cs =>
    unfold str_find
    by_cases hp : needle.isPrefixOf (c :: cs) = true
    · rw [if_pos hp]
      simp only [true_iff]
      exact List.isPrefixOf_iff_prefix.mp hp
    · rw [if_neg hp]
      constructor
      · intro h
        have := str_find_ge needle cs (pos + 1) pos h
        omega
      · intro h
        exact absurd (List.isPrefixOf_iff_prefix.mpr h) hp

theorem search_fpm_master_pid_cons (init_process_pid : Int) (e : ProcEntry)
    (proc : List ProcEntry) :
    search_fpm_master_pid init_process_pid (e :: proc)
      = if is_child_of init_process_pid e ∧ has_master_signature e then entry_pid e
        else search_fpm_master_pid init_process_pid proc := by
  unfold search_fpm_master_pid
  by_cases hc : is_child_of init_process_pid e ∧ has_master_signature e
  · rw [if_pos hc]
    obtain ⟨h1, h2⟩ := hc
    unfold is_child_of parent_id at h1
    unfold has_master_signature at h2
    by_cases hd : e.is_dir = true
    · rw [if_pos hd] at h1
      cases hs : e.stat_line with
      | none => rw [hs] at h1; cases h1
      | some l =>
        rw [hs] at h1
        simp only at h1
        by_cases hl : l.isEmpty = true
        · rw [if_pos hl] at h1; cases h1
        · rw [if_neg hl] at h1
          have hp : atoi (fourth_item l) = init_process_pid := Option.some.inj h1
          have hf := (str_find_eq_start_iff fpm_master_signature e.cmdline 0).mpr h2
          simp [List.filter_cons, hd, search_fpm_master_pid_loop, hs, hl, hp, hf, entry_pid]
    · rw [if_neg hd] at h1; cases h1
  · rw [if_neg hc]
    by_cases hd : e.is_dir = true
    · simp only [List.filter_cons, hd, if_true]
      rw [search_fpm_master_pid_loop]
      cases hs : e.stat_line with
      | none => rfl
      | some l =>
        simp only
        by_cases hl : l.isEmpty = true
        · rw [if_pos hl]
        · rw [if_neg hl]
          by_cases hp : atoi (fourth_item l) = init_process_pid
          · rw [if_pos hp]
            by_cases hf : str_find fpm_master_signature e.cmdline 0 = some 0
            · exfalso
              apply hc
              refine ⟨?_, (str_find_eq_start_iff fpm_master_signature e.cmdline 0).mp hf⟩
              unfold is_child_of parent_id
              rw [if_pos hd, hs]
              simp only
              rw [if_neg hl, hp]
            · rw [if_neg hf]
          · rw [if_neg hp]
    · simp [List.filter_cons, hd]

theorem search_fpm_master_pid_none (init_process_pid : Int) (proc : List ProcEntry)
    (h : ∀ e ∈ proc, ¬ (is_child_of init_process_pid e ∧ has_master_signature e)) :
    search_fpm_master_pid init_process_pid proc = 0 := by
  induction proc with
  | nil => rfl
  | cons e rest ih =>
    rw [search_fpm_master_pid_cons, if_neg (h e (List.mem_cons_self e rest))]
    exact ih (fun e' he' => h e' (List.mem_cons_of_mem e he'))

theorem search_fpm_master_pid_first (init_process_pid : Int)
    (before : List ProcEntry) (e : ProcEntry) (after : List ProcEntry)
    (hbefore : ∀ e' ∈ before,
      ¬ (is_child_of init_process_pid e' ∧ has_master_signature e'))
    (he : is_child_of init_process_pid e ∧ has_master_signature e) :
    search_fpm_master_pid init_process_pid (before ++ e :: after) = entry_pid e := by
  induction before with
  | nil => rw [List.nil_append, search_fpm_master_pid_cons, if_pos he]
  | cons b rest ih =>
    rw [List.cons_append, search_fpm_master_pid_cons,
      if_neg (hbefore b (List.mem_cons_self b rest))]
    exact ih (fun e' he' => hbefore e' (List.mem_cons_of_mem b he'))

theorem wf_init : State.init.wf := by
  intro h
  cases h

theorem process_agent_startup_block (cfg : Config) (fork : Int) (s : State) (b : Bool)
    (s1 : State) (cb : OpenraspCtrlBlock) (hcb : s.agent_ctrl_block = some cb)
    (h : process_agent_startup cfg fork s = Call.returned b s1) :
    s1.agent_ctrl_block ≠ none := by
  unfold process_agent_startup at h
  have hblock : ∀ t : State, t.agent_ctrl_block = some cb →
      ({ t with agents := t.agents ++ [new_agent AgentKind.log] } : State).agent_ctrl_block
        = some cb := fun t ht => ht
  by_cases hneg : fork < 0
  · rw [if_pos hneg] at h
    injection h with _ hs
    rw [← hs]
    cases cfg.plugin_update_enable <;> simp [hcb]
  · rw [if_neg hneg] at h
    by_cases hzero : fork = 0
    · rw [if_pos hzero] at h
      cases h
    · rw [if_neg hzero] at h
      cases hp : cfg.plugin_update_enable <;> rw [hp] at h <;> simp [hcb] at h <;>
        (obtain ⟨_, hs⟩ := h
         rw [← hs]
         simp)

theorem startup_preserves_wf (cfg : Config) (env : StartupEnv) (s : State) (b : Bool)
    (s1 : State) (hwf : s.wf) (h : startup cfg env s = Call.returned b s1) : s1.wf := by
  unfold startup at h
  by_cases hneed : env.check_sapi_need_alloc_shm = true
  · rw [if_pos hneed] at h
    unfold create_share_memory at h
    cases hshm : env.shm_create with
    | none =>
      rw [hshm] at h
      simp only at h
      injection h with _ hs
      intro hi
      rw [← hs] at hi ⊢
      exact hwf hi
    | some cb =>
      rw [hshm] at h
      simp only at h
      cases hp : process_agent_startup cfg env.fork
          { initialized := s.initialized, init_process_pid := env.getpid,
            has_registered := s.has_registered, rasp_id := s.rasp_id, local_ip := s.local_ip,
            agent_ctrl_block := some (cb.set_master_pid env.getpid), agents := s.agents,
            trace := s.trace ++ [Event.shm_create] } with
      | returned v s4 =>
        rw [hp] at h
        simp only at h
        injection h with _ hs
        intro _
        rw [← hs]
        exact process_agent_startup_block cfg env.fork _ v s4 _ rfl hp
      | supervising s4 => rw [hp] at h; cases h
      | fault => rw [hp] at h; cases h
  · rw [if_neg hneed] at h
    injection h with _ hs
    intro hi
    rw [← hs] at hi ⊢
    exact hwf hi

theorem startup_fork_failure (cfg : Config) (env : StartupEnv) (s : State)
    (cb : OpenraspCtrlBlock) (hneed : env.check_sapi_need_alloc_shm = true)
    (hshm : env.shm_create = some cb) (hfork : env.fork < 0) :
    ∃ s1, startup cfg env s = Call.returned true s1 ∧ s1.initialized = true
      ∧ s1.agent_ctrl_block = some (cb.set_master_pid env.getpid) := by
  unfold startup
  rw [if_pos hneed]
  unfold create_share_memory
  rw [hshm]
  simp only
  unfold process_agent_startup
  simp only [hfork, if_true]
  cases cfg.plugin_update_enable <;> exact ⟨_, rfl, rfl, rfl⟩

/-- C3: evaluation of `startup` where shared coordination is needed, the
control block is allocated and `fork()` of the supervisor returns -1:
`process_agent_startup` returns false, yet `startup` returns true and
marks the manager initialized, the supervisor pid never being recorded. -/
theorem startup_fork_failure_returns_true :
    (∃ s1, process_agent_startup sample_config (-1)
        { State.init with agent_ctrl_block := some sample_block } = Call.returned false s1)
    ∧ ∃ s2, startup sample_config sample_startup_env_fork_fails State.init
          = Call.returned true s2
        ∧ s2.initialized = true
        ∧ s2.agent_ctrl_block
            = some { master_pid := 100, supervisor_id := 0, log_agent_id := 0,
                     plugin_agent_id := 0 } := by
  refine ⟨⟨_, rfl⟩, ?_⟩
  obtain ⟨s2, h1, h2, h3⟩ := startup_fork_failure sample_config sample_startup_env_fork_fails
    State.init _ rfl rfl (by decide)
  exact ⟨s2, h1, h2, h3⟩

theorem shutdown_not_initialized (cfg : Config) (env : ShutdownEnv) (s : State)
    (h : s.initialized = false) : shutdown cfg env s = some (true, s) := by
  unfold shutdown
  simp [h]

theorem shutdown_other_process (cfg : Config) (env : ShutdownEnv) (s : State)
    (cb : OpenraspCtrlBlock) (hinit : s.initialized = true)
    (hcb : s.agent_ctrl_block = some cb)
    (h : (corrected_block env s cb).master_pid ≠ 0
      ∧ env.getpid ≠ (corrected_block env s cb).master_pid) :
    shutdown cfg env s
      = some (true, { s with agent_ctrl_block := some (corrected_block env s cb) }) := by
  unfold shutdown
  rw [if_pos hinit, hcb]
  simp only [OpenraspCtrlBlock.get_master_pid]
  rw [if_pos h]

theorem shutdown_active_master (cfg : Config) (env : ShutdownEnv) (s : State)
    (cb : OpenraspCtrlBlock) (hinit : s.initialized = true)
    (hcb : s.agent_ctrl_block = some cb)
    (h : ¬ ((corrected_block env s cb).master_pid ≠ 0
      ∧ env.getpid ≠ (corrected_block env s cb).master_pid)) :
    shutdown cfg env s
      = some (true,
          { s with initialized := false, agent_ctrl_block := none, agents := [],
                   trace := s.trace ++ shutdown_kills cfg (corrected_block env s cb)
                              ++ [Event.shm_destroy] }) := by
  unfold shutdown
  rw [if_pos hinit, hcb]
  simp only [OpenraspCtrlBlock.get_master_pid]
  rw [if_neg h]
  simp [process_agent_shutdown, destroy_share_memory]

theorem destroys_append (t u : List Event) : destroys (t ++ u) = destroys t + destroys u := by
  simp [destroys, List.count_append]

theorem destroys_shutdown_kills (cfg : Config) (cb : OpenraspCtrlBlock) :
    destroys (shutdown_kills cfg cb) = 0 := by
  unfold shutdown_kills destroys
  rw [List.count_eq_zero]
  intro hmem
  simp only [List.mem_append] at hmem
  rcases hmem with (h | h) | h
  · split at h <;> simp at h
  · split at h
    · split at h <;> simp at h
    · simp at h
  · split at h <;> simp at h

/-- C4: `shutdown` on a manager that was never started returns true and
leaves the whole state as it was, trace included (no signal, no
`shm_manager->destroy`, no field changed); and from every state in which an
initialized manager holds its control block, two `shutdown` calls in a row
(each with its own host answers) both return true and together call
`shm_manager->destroy` at most once. -/
theorem shutdown_idempotent (cfg : Config) (env env2 : ShutdownEnv) (s : State) :
    (s.initialized = false → shutdown cfg env s = some (true, s))
    ∧ (s.wf → ∃ s1 s2, shutdown cfg env s = some (true, s1)
        ∧ shutdown cfg env2 s1 = some (true, s2)
        ∧ s1.wf ∧ s2.wf
        ∧ destroys s2.trace ≤ destroys s.trace + 1) := by
  refine ⟨shutdown_not_initialized cfg env s, ?_⟩
  intro hwf
  by_cases hinit : s.initialized = true
  · cases hcb : s.agent_ctrl_block with
    | none => exact absurd hcb (hwf hinit)
    | some cb =>
      by_cases h : (corrected_block env s cb).master_pid ≠ 0
          ∧ env.getpid ≠ (corrected_block env s cb).master_pid
      · -- the first call leaves the teardown to the master
        have e1 := shutdown_other_process cfg env s cb hinit hcb h
        by_cases h2 : (corrected_block env2
              { s with agent_ctrl_block := some (corrected_block env s cb) }
              (corrected_block env s cb)).master_pid ≠ 0
            ∧ env2.getpid ≠ (corrected_block env2
              { s with agent_ctrl_block := some (corrected_block env s cb) }
              (corrected_block env s cb)).master_pid
        · have e2 := shutdown_other_process cfg env2
            { s with agent_ctrl_block := some (corrected_block env s cb) }
            (corrected_block env s cb) hinit rfl h2
          refine ⟨_, _, e1, e2, ?_, ?_, ?_⟩
          · intro _; simp
          · intro _; simp
          · simp
        · have e2 := shutdown_active_master cfg env2
            { s with agent_ctrl_block := some (corrected_block env s cb) }
            (corrected_block env s cb) hinit rfl h2
          refine ⟨_, _, e1, e2, ?_, ?_, ?_⟩
          · intro _; simp
          · intro hi; simp at hi
          · simp only [destroys_append, destroys_shutdown_kills]
            simp [destroys]
      · have e1 := shutdown_active_master cfg env s cb hinit hcb h
        have e2 := shutdown_not_initialized cfg env2
          { s with initialized := false, agent_ctrl_block := none, agents := [],
                   trace := s.trace ++ shutdown_kills cfg (corrected_block env s cb)
                              ++ [Event.shm_destroy] } rfl
        refine ⟨_, _, e1, e2, ?_, ?_, ?_⟩
        · intro hi; simp at hi
        · intro hi; simp at hi
        · simp only [destroys_append, destroys_shutdown_kills]
          simp [destroys]
  · have hfalse : s.initialized = false := by
      cases hb : s.initialized with
      | true => exact absurd hb hinit
      | false => rfl
    have e1 := shutdown_not_initialized cfg env s hfalse
    exact ⟨s, s, e1, by rw [shutdown_not_initialized cfg env2 s hfalse], hwf, hwf,
      Nat.le_succ _⟩

/-- A never-started manager is left alone, and the started sample manager is
torn down once by two calls of its master. -/
theorem shutdown_idempotent_witness :
    shutdown sample_config sample_shutdown_env State.init = some (true, State.init)
    ∧ ∃ s1 s2, shutdown sample_config sample_shutdown_env sample_started = some (true, s1)
        ∧ shutdown sample_config sample_shutdown_env s1 = some (true, s2)
        ∧ destroys s2.trace ≤ 1 := by
  have h0 := shutdown_idempotent sample_config sample_shutdown_env sample_shutdown_env
    State.init
  have h1 := shutdown_idempotent sample_config sample_shutdown_env sample_shutdown_env
    sample_started
  refine ⟨h0.1 rfl, ?_⟩
  obtain ⟨s1, s2, e1, e2, _, _, hd⟩ := h1.2 (by intro _; simp [sample_started])
  exact ⟨s1, s2, e1, e2, by simpa [sample_started, destroys] using hd⟩

theorem shutdown_kills_eq (cfg : Config) (cb : OpenraspCtrlBlock) :
    shutdown_kills cfg cb
      = (if cb.log_agent_id > 0 then [Event.kill cb.log_agent_id] else [])
        ++ (if cfg.plugin_update_enable = true ∧ cb.plugin_agent_id > 0
            then [Event.kill cb.plugin_agent_id] else [])
        ++ (if cb.supervisor_id > 0 then [Event.kill cb.supervisor_id] else []) := by
  unfold shutdown_kills
  simp only [OpenraspCtrlBlock.get_log_agent_id, OpenraspCtrlBlock.get_plugin_agent_id,
    OpenraspCtrlBlock.get_supervisor_id]
  cases cfg.plugin_update_enable <;> simp

theorem corrected_block_cases (env : ShutdownEnv) (s : State) (cb : OpenraspCtrlBlock) :
    corrected_block env s cb = cb
    ∨ ∃ pid, pid ≠ 0 ∧ corrected_block env s cb = cb.set_master_pid pid := by
  unfold corrected_block
  by_cases hsapi : env.sapi_name = "fpm-fcgi".toList
  · rw [if_pos hsapi]
    by_cases hpid : search_fpm_master_pid s.init_process_pid env.proc ≠ 0
    · exact Or.inr ⟨_, hpid, by simp only [hpid, ne_eq, not_false_eq_true, if_true]⟩
    · exact Or.inl (by simp only [hpid, if_false])
  · rw [if_neg hsapi]
    exact Or.inl rfl

theorem corrected_block_fields (env : ShutdownEnv) (s : State) (cb : OpenraspCtrlBlock) :
    (corrected_block env s cb).log_agent_id = cb.log_agent_id
    ∧ (corrected_block env s cb).plugin_agent_id = cb.plugin_agent_id
    ∧ (corrected_block env s cb).supervisor_id = cb.supervisor_id := by
  rcases corrected_block_cases env s cb with h | ⟨pid, _, h⟩ <;> rw [h] <;> exact ⟨rfl, rfl, rfl⟩

/-- The fpm correction keeps the control-block invariant. -/
theorem block_ok_corrected (cfg : Config) (env : ShutdownEnv) (s : State)
    (cb : OpenraspCtrlBlock) (hok : block_ok cfg cb) :
    block_ok cfg (corrected_block env s cb) := by
  refine ⟨?_, ?_⟩
  · rcases corrected_block_cases env s cb with h | ⟨pid, hpid, h⟩
    · rw [h]; exact hok.1
    · rw [h]; exact hpid
  · rw [(corrected_block_fields env s cb).2.1]
    exact hok.2

theorem block_inv_init (cfg : Config) : State.init.block_inv cfg := by
  intro h
  cases h

theorem process_agent_startup_fields (cfg : Config) (fork : Int) (s : State) (b : Bool)
    (s1 : State) (cb : OpenraspCtrlBlock) (hcb : s.agent_ctrl_block = some cb)
    (h : process_agent_startup cfg fork s = Call.returned b s1) :
    ∃ cb1, s1.agent_ctrl_block = some cb1 ∧ cb1.master_pid = cb.master_pid
      ∧ cb1.plugin_agent_id = cb.plugin_agent_id := by
  unfold process_agent_startup at h
  by_cases hneg : fork < 0
  · rw [if_pos hneg] at h
    injection h with _ hs
    rw [← hs]
    exact ⟨cb, by cases cfg.plugin_update_enable <;> simp [hcb], rfl, rfl⟩
  · rw [if_neg hneg] at h
    by_cases hzero : fork = 0
    · rw [if_pos hzero] at h
      cases h
    · rw [if_neg hzero] at h
      cases hp : cfg.plugin_update_enable <;> rw [hp] at h <;> simp [hcb] at h <;>
        (obtain ⟨_, hs⟩ := h
         rw [← hs]
         exact ⟨cb.set_supervisor_id fork, rfl, rfl, rfl⟩)

/-- `process_agent_startup` adds a heartbeat agent only when plugin update is
enabled. -/
theorem process_agent_startup_agents_ok (cfg : Config) (fork : Int) (s : State) (b : Bool)
    (s1 : State) (hok : agents_ok cfg s.agents)
    (h : process_agent_startup cfg fork s = Call.returned b s1) :
    agents_ok cfg s1.agents := by
  intro hp a ha
  have hags : s1.agents = s.agents ++ [new_agent AgentKind.log] := by
    unfold process_agent_startup at h
    rw [hp] at h
    by_cases hneg : fork < 0
    · rw [if_pos hneg] at h
      injection h with _ hs
      rw [← hs]
      rfl
    · rw [if_neg hneg] at h
      by_cases hzero : fork = 0
      · rw [if_pos hzero] at h
        cases h
      · rw [if_neg hzero] at h
        cases hb : s.agent_ctrl_block with
        | none => simp [hb] at h
        | some cb =>
          simp [hb] at h
          rw [← h.2]
  rw [hags] at ha
  rcases List.mem_append.mp ha with h1 | h1
  · exact hok hp a h1
  · simp only [List.mem_singleton] at h1
    rw [h1]
    simp [new_agent]

/-- `startup`, called by a process with a non-zero pid on a host whose fresh
shared-memory section holds no heartbeat-agent pid when plugin update is
disabled, keeps the state invariant. -/
theorem startup_preserves_block_inv (cfg : Config) (env : StartupEnv) (s : State)
    (b : Bool) (s1 : State) (hpid : env.getpid ≠ 0)
    (hfresh : ∀ cb0, env.shm_create = some cb0 →
      cfg.plugin_update_enable = false → cb0.plugin_agent_id ≤ 0)
    (hinv : s.block_inv cfg) (h : startup cfg env s = Call.returned b s1) :
    s1.block_inv cfg := by
  unfold startup at h
  by_cases hneed : env.check_sapi_need_alloc_shm = true
  · rw [if_pos hneed] at h
    unfold create_share_memory at h
    cases hshm : env.shm_create with
    | none =>
      rw [hshm] at h
      simp only at h
      injection h with _ hs
      intro hi
      rw [← hs] at hi ⊢
      exact hinv hi
    | some cb =>
      rw [hshm] at h
      simp only at h
      cases hp : process_agent_startup cfg env.fork
          { initialized := s.initialized, init_process_pid := env.getpid,
            has_registered := s.has_registered, rasp_id := s.rasp_id, local_ip := s.local_ip,
            agent_ctrl_block := some (cb.set_master_pid env.getpid), agents := s.agents,
            trace := s.trace ++ [Event.shm_create] } with
      | returned v s4 =>
        rw [hp] at h
        simp only at h
        injection h with _ hs
        intro _
        obtain ⟨cb1, h1, h2, h3⟩ :=
          process_agent_startup_fields cfg env.fork _ v s4 (cb.set_master_pid env.getpid) rfl hp
        rw [← hs]
        refine ⟨cb1, h1, ?_, ?_⟩
        · rw [h2]; exact hpid
        · rw [h3]; exact hfresh cb hshm
      | supervising s4 => rw [hp] at h; cases h
      | fault => rw [hp] at h; cases h
  · rw [if_neg hneed] at h
    injection h with _ hs
    intro hi
    rw [← hs] at hi ⊢
    exact hinv hi

/-- `shutdown` keeps the state invariant. -/
theorem shutdown_preserves_block_inv (cfg : Config) (env : ShutdownEnv) (s : State)
    (b : Bool) (s1 : State) (hinv : s.block_inv cfg)
    (h : shutdown cfg env s = some (b, s1)) : s1.block_inv cfg := by
  by_cases hinit : s.initialized = true
  · obtain ⟨cb, hcb, hok⟩ := hinv hinit
    by_cases hc : (corrected_block env s cb).master_pid ≠ 0
        ∧ env.getpid ≠ (corrected_block env s cb).master_pid
    · rw [shutdown_other_process cfg env s cb hinit hcb hc] at h
      injection h with h
      injection h with _ hs
      rw [← hs]
      intro _
      exact ⟨_, rfl, block_ok_corrected cfg env s cb hok⟩
    · rw [shutdown_active_master cfg env s cb hinit hcb hc] at h
      injection h with h
      injection h with _ hs
      rw [← hs]
      intro hi
      cases hi
  · have hfalse : s.initialized = false := by
      cases hb : s.initialized with
      | true => exact absurd hb hinit
      | false => rfl
    rw [shutdown_not_initialized cfg env s hfalse] at h
    injection h with h
    injection h with _ hs
    rw [← hs]
    exact hinv

/-- C5: on an initialized manager whose control block satisfies the
invariant `block_ok` (kept by the fpm correction, by `startup`, `shutdown`
and the liveness scan), let `cb1` be the control block after the optional
fpm correction.  A caller whose pid differs from `cb1.master_pid` gets true
back with nothing done: the trace is unchanged (no signal, no
`shm_manager->destroy`), `initialized` stays true, only the corrected block is
stored.  A caller whose pid equals `cb1.master_pid` sends SIGKILL to the
log-agent, heartbeat-agent and supervisor pids held in `cb1` (a field holds
a pid when it is positive), releases the shared memory and sets
`initialized` to false. -/
theorem shutdown_master_only (cfg : Config) (env : ShutdownEnv) (s : State)
    (cb : OpenraspCtrlBlock) (hinit : s.initialized = true)
    (hcb : s.agent_ctrl_block = some cb) (hok : block_ok cfg cb) :
    block_ok cfg (corrected_block env s cb)
    ∧ (env.getpid ≠ (corrected_block env s cb).master_pid →
      shutdown cfg env s
        = some (true, { s with agent_ctrl_block := some (corrected_block env s cb) }))
    ∧ (env.getpid = (corrected_block env s cb).master_pid →
      shutdown cfg env s
        = some (true,
            { s with
              initialized := false, agent_ctrl_block := none, agents := [],
              trace := s.trace
                ++ ((if (corrected_block env s cb).log_agent_id > 0
                      then [Event.kill (corrected_block env s cb).log_agent_id] else [])
                  ++ (if (corrected_block env s cb).plugin_agent_id > 0
                      then [Event.kill (corrected_block env s cb).plugin_agent_id] else [])
                  ++ (if (corrected_block env s cb).supervisor_id > 0
                      then [Event.kill (corrected_block env s cb).supervisor_id] else []))
                ++ [Event.shm_destroy] })) := by
  have hok1 := block_ok_corrected cfg env s cb hok
  refine ⟨hok1, ?_, ?_⟩
  · intro hne
    exact shutdown_other_process cfg env s cb hinit hcb ⟨hok1.1, hne⟩
  · intro heq
    have hn : ¬ ((corrected_block env s cb).master_pid ≠ 0
        ∧ env.getpid ≠ (corrected_block env s cb).master_pid) := fun h => h.2 heq
    rw [shutdown_active_master cfg env s cb hinit hcb hn, shutdown_kills_eq]
    have hplug : (if cfg.plugin_update_enable = true
          ∧ (corrected_block env s cb).plugin_agent_id > 0
        then [Event.kill (corrected_block env s cb).plugin_agent_id] else [])
        = (if (corrected_block env s cb).plugin_agent_id > 0
           then [Event.kill (corrected_block env s cb).plugin_agent_id] else []) := by
      cases hp : cfg.plugin_update_enable with
      | true => simp
      | false =>
        have hle := hok1.2 hp
        have hnot : ¬ (corrected_block env s cb).plugin_agent_id > 0 := by omega
        simp [hnot]
    rw [hplug]

/-- On the fpm host the worker 555 returns without touching anything, the
master pid being corrected to 4242; the master 100 of the command-line host
tears the sample manager down. -/
theorem shutdown_master_only_witness :
    shutdown sample_config sample_shutdown_env_worker sample_started
      = some (true, { sample_started with
          agent_ctrl_block := some { sample_block with master_pid := 4242 } })
    ∧ shutdown sample_config sample_shutdown_env sample_started
      = some (true, { sample_started with
          initialized := false, agent_ctrl_block := none, agents := [],
          trace := [Event.kill 32, Event.kill 33, Event.kill 31, Event.shm_destroy] }) := by
  have hw := shutdown_master_only sample_config sample_shutdown_env_worker sample_started
    sample_block rfl rfl ⟨by decide, by decide⟩
  have hm := shutdown_master_only sample_config sample_shutdown_env sample_started
    sample_block rfl rfl ⟨by decide, by decide⟩
  constructor
  · rw [hw.2.1 (by decide)]
    decide
  · rw [hm.2.2 (by decide)]
    decide

/-! ## The supervisor: theorems -/

theorem forks_before_zero (agents : List BaseAgent) : forks_before agents 0 = 0 := by
  simp [forks_before]

theorem forks_before_cons_succ (a : BaseAgent) (rest : List BaseAgent) (j : Nat) :
    forks_before (a :: rest) (j + 1)
      = (if a.is_alive = false then 1 else 0) + forks_before rest j := by
  unfold forks_before
  rw [List.take_succ_cons, List.countP_cons]
  cases a.is_alive <;> simp [Nat.add_comm]

theorem check_loop_cons_alive (fork : Nat → Int) (i k : Nat) (cb : OpenraspCtrlBlock)
    (a : BaseAgent) (rest : List BaseAgent) (r : CheckResult) (ha : a.is_alive = true)
    (hr : check_loop fork (i + 1) k (some cb) rest = some r) :
    check_loop fork i k (some cb) (a :: rest) = some { r with agents := a :: r.agents } := by
  rw [check_loop]
  simp [ha, hr]

theorem check_loop_cons_child (fork : Nat → Int) (i k : Nat) (cb : OpenraspCtrlBlock)
    (a : BaseAgent) (rest : List BaseAgent) (r : CheckResult) (ha : a.is_alive = false)
    (hp : fork k = 0)
    (hr : check_loop fork (i + 1) (k + 1) (some cb) rest = some r) :
    check_loop fork i k (some cb) (a :: rest)
      = some { r with agents := a :: r.agents,
                      events := Event.fork_agent i (fork k) :: Event.agent_run i :: r.events } := by
  rw [check_loop]
  simp [ha, hr, hp]

theorem check_loop_cons_spawned (fork : Nat → Int) (i k : Nat) (cb : OpenraspCtrlBlock)
    (a : BaseAgent) (rest : List BaseAgent) (r : CheckResult) (ha : a.is_alive = false)
    (hp : fork k > 0)
    (hr : check_loop fork (i + 1) (k + 1) (some (write_pid_to_shm a.kind (fork k) cb)) rest
      = some r) :
    check_loop fork i k (some cb) (a :: rest)
      = some { r with agents := { a with is_alive := true, agent_pid := fork k } :: r.agents,
                      events := Event.fork_agent i (fork k) :: r.events } := by
  have hne : fork k ≠ 0 := by omega
  rw [check_loop]
  simp [ha, hr, hp, hne]

theorem check_loop_cons_failed (fork : Nat → Int) (i k : Nat) (cb : OpenraspCtrlBlock)
    (a : BaseAgent) (rest : List BaseAgent) (r : CheckResult) (ha : a.is_alive = false)
    (hp : fork k < 0)
    (hr : check_loop fork (i + 1) (k + 1) (some cb) rest = some r) :
    check_loop fork i k (some cb) (a :: rest)
      = some { r with agents := a :: r.agents,
                      events := Event.fork_agent i (fork k) :: r.events } := by
  have hne : fork k ≠ 0 := by omega
  have hnp : ¬ fork k > 0 := by omega
  rw [check_loop]
  simp [ha, hr, hnp, hne]

theorem check_loop_some (fork : Nat → Int) (agents : List BaseAgent) :
    ∀ (i k : Nat) (cb : OpenraspCtrlBlock),
      ∃ r cb1, check_loop fork i k (some cb) agents = some r
        ∧ r.block = some cb1
        ∧ r.agents.length = agents.length
        ∧ cb1.master_pid = cb.master_pid
        ∧ cb1.supervisor_id = cb.supervisor_id := by
  induction agents with
  | nil =>
    intro i k cb
    exact ⟨_, cb, by rw [check_loop], rfl, rfl, rfl, rfl⟩
  | cons a rest ih =>
    intro i k cb
    by_cases ha : a.is_alive = true
    · obtain ⟨r, cb1, hr, hb, hl, hm, hs⟩ := ih (i + 1) k cb
      exact ⟨_, cb1, check_loop_cons_alive fork i k cb a rest r ha hr, hb, by simp [hl], hm, hs⟩
    · have ha : a.is_alive = false := by simpa using ha
      rcases lt_trichotomy (fork k) 0 with hp | hp | hp
      · obtain ⟨r, cb1, hr, hb, hl, hm, hs⟩ := ih (i + 1) (k + 1) cb
        exact ⟨_, cb1, check_loop_cons_failed fork i k cb a rest r ha hp hr, hb, by simp [hl],
          hm, hs⟩
      · obtain ⟨r, cb1, hr, hb, hl, hm, hs⟩ := ih (i + 1) (k + 1) cb
        exact ⟨_, cb1, check_loop_cons_child fork i k cb a rest r ha hp hr, hb, by simp [hl],
          hm, hs⟩
      · obtain ⟨r, cb1, hr, hb, hl, hm, hs⟩ :=
          ih (i + 1) (k + 1) (write_pid_to_shm a.kind (fork k) cb)
        refine ⟨_, cb1, check_loop_cons_spawned fork i k cb a rest r ha hp hr, hb,
          by simp [hl], ?_, ?_⟩
        · rw [hm]; cases a.kind <;> rfl
        · rw [hs]; cases a.kind <;> rfl

theorem check_loop_cons_cases (fork : Nat → Int) (i k : Nat) (cb : OpenraspCtrlBlock)
    (a : BaseAgent) (rest : List BaseAgent) (r : CheckResult)
    (h : check_loop fork i k (some cb) (a :: rest) = some r) :
    (a.is_alive = true ∧ ∃ r1, check_loop fork (i + 1) k (some cb) rest = some r1
        ∧ r = { r1 with agents := a :: r1.agents })
    ∨ (a.is_alive = false ∧ fork k > 0
        ∧ ∃ r1, check_loop fork (i + 1) (k + 1)
              (some (write_pid_to_shm a.kind (fork k) cb)) rest = some r1
          ∧ r = { r1 with agents := { a with is_alive := true, agent_pid := fork k } :: r1.agents,
                          events := Event.fork_agent i (fork k) :: r1.events })
    ∨ (a.is_alive = false ∧ fork k = 0
        ∧ ∃ r1, check_loop fork (i + 1) (k + 1) (some cb) rest = some r1
          ∧ r = { r1 with agents := a :: r1.agents,
                          events := Event.fork_agent i (fork k) :: Event.agent_run i
                            :: r1.events })
    ∨ (a.is_alive = false ∧ fork k < 0
        ∧ ∃ r1, check_loop fork (i + 1) (k + 1) (some cb) rest = some r1
          ∧ r = { r1 with agents := a :: r1.agents,
                          events := Event.fork_agent i (fork k) :: r1.events }) := by
  by_cases ha : a.is_alive = true
  · obtain ⟨r1, _, hr, _⟩ := check_loop_some fork rest (i + 1) k cb
    rw [check_loop_cons_alive fork i k cb a rest r1 ha hr] at h
    exact Or.inl ⟨ha, r1, hr, (Option.some.inj h).symm⟩
  · have ha : a.is_alive = false := by simpa using ha
    rcases lt_trichotomy (fork k) 0 with hp | hp | hp
    · obtain ⟨r1, _, hr, _⟩ := check_loop_some fork rest (i + 1) (k + 1) cb
      rw [check_loop_cons_failed fork i k cb a rest r1 ha hp hr] at h
      exact Or.inr (Or.inr (Or.inr ⟨ha, hp, r1, hr, (Option.some.inj h).symm⟩))
    · obtain ⟨r1, _, hr, _⟩ := check_loop_some fork rest (i + 1) (k + 1) cb
      rw [check_loop_cons_child fork i k cb a rest r1 ha hp hr] at h
      exact Or.inr (Or.inr (Or.inl ⟨ha, hp, r1, hr, (Option.some.inj h).symm⟩))
    · obtain ⟨r1, _, hr, _⟩ :=
        check_loop_some fork rest (i + 1) (k + 1) (write_pid_to_shm a.kind (fork k) cb)
      rw [check_loop_cons_spawned fork i k cb a rest r1 ha hp hr] at h
      exact Or.inr (Or.inl ⟨ha, hp, r1, hr, (Option.some.inj h).symm⟩)

/-- The agent a liveness scan leaves in a slot: respawned with the new pid
when it was not alive and its fork succeeded, untouched otherwise. -/
theorem check_loop_agents (fork : Nat → Int) (agents : List BaseAgent) :
    ∀ (i k : Nat) (cb : OpenraspCtrlBlock) (r : CheckResult),
      check_loop fork i k (some cb) agents = some r →
      ∀ (j : Nat) (a : BaseAgent), agents[j]? = some a →
        r.agents[j]? = some
          (if a.is_alive = false ∧ fork (k + forks_before agents j) > 0 then
            { a with is_alive := true, agent_pid := fork (k + forks_before agents j) }
           else a) := by
  induction agents with
  | nil => intro i k cb r _ j a hj; simp at hj
  | cons x rest ih =>
    intro i k cb r h j a hj
    rcases check_loop_cons_cases fork i k cb x rest r h with
      ⟨hx, r1, hr1, rfl⟩ | ⟨hx, hp, r1, hr1, rfl⟩ | ⟨hx, hp, r1, hr1, rfl⟩
        | ⟨hx, hp, r1, hr1, rfl⟩
    · cases j with
      | zero =>
        simp only [List.getElem?_cons_zero, Option.some.injEq] at hj
        subst hj
        simp [hx]
      | succ j =>
        simp only [List.getElem?_cons_succ] at hj
        have := ih (i + 1) k cb r1 hr1 j a hj
        simp only [List.getElem?_cons_succ, this, forks_before_cons_succ, hx]
        simp
    · cases j with
      | zero =>
        simp only [List.getElem?_cons_zero, Option.some.injEq] at hj
        subst hj
        simp [hx, hp, forks_before_zero]
      | succ j =>
        simp only [List.getElem?_cons_succ] at hj
        have := ih (i + 1) (k + 1) _ r1 hr1 j a hj
        simp only [List.getElem?_cons_succ, this, forks_before_cons_succ, hx]
        simp [Nat.add_assoc]
    · cases j with
      | zero =>
        simp only [List.getElem?_cons_zero, Option.some.injEq] at hj
        subst hj
        simp [hx, hp, forks_before_zero]
      | succ j =>
        simp only [List.getElem?_cons_succ] at hj
        have := ih (i + 1) (k + 1) _ r1 hr1 j a hj
        simp only [List.getElem?_cons_succ, this, forks_before_cons_succ, hx]
        simp [Nat.add_assoc]
    · cases j with
      | zero =>
        simp only [List.getElem?_cons_zero, Option.some.injEq] at hj
        subst hj
        have hnp : ¬ fork k > 0 := by omega
        simp [hx, hnp, forks_before_zero]
      | succ j =>
        simp only [List.getElem?_cons_succ] at hj
        have := ih (i + 1) (k + 1) _ r1 hr1 j a hj
        simp only [List.getElem?_cons_succ, this, forks_before_cons_succ, hx]
        simp [Nat.add_assoc]

/-- No fork is recorded for a slot below the one the scan starts from. -/
theorem check_loop_no_fork_below (fork : Nat → Int) (agents : List BaseAgent) :
    ∀ (i k : Nat) (cb : OpenraspCtrlBlock) (r : CheckResult),
      check_loop fork i k (some cb) agents = some r →
      ∀ slot, slot < i → r.events.countP (Event.is_fork_of slot) = 0 := by
  induction agents with
  | nil =>
    intro i k cb r h slot _
    rw [check_loop] at h
    rw [← Option.some.inj h]
    rfl
  | cons x rest ih =>
    intro i k cb r h slot hslot
    have hne : ¬ i = slot := by omega
    rcases check_loop_cons_cases fork i k cb x rest r h with
      ⟨hx, r1, hr1, rfl⟩ | ⟨hx, hp, r1, hr1, rfl⟩ | ⟨hx, hp, r1, hr1, rfl⟩
        | ⟨hx, hp, r1, hr1, rfl⟩
    · exact ih (i + 1) k cb r1 hr1 slot (by omega)
    · have := ih (i + 1) (k + 1) _ r1 hr1 slot (by omega)
      simp [List.countP_cons, Event.is_fork_of, hne, this]
    · have := ih (i + 1) (k + 1) _ r1 hr1 slot (by omega)
      simp [List.countP_cons, Event.is_fork_of, hne, this]
    · have := ih (i + 1) (k + 1) _ r1 hr1 slot (by omega)
      simp [List.countP_cons, Event.is_fork_of, hne, this]

/-- The number of forks a scan records for the slot `i + j`: one when the
agent there was not alive, none when it was alive or the slot is empty. -/
theorem check_loop_fork_count (fork : Nat → Int) (agents : List BaseAgent) :
    ∀ (i k : Nat) (cb : OpenraspCtrlBlock) (r : CheckResult),
      check_loop fork i k (some cb) agents = some r →
      ∀ j, r.events.countP (Event.is_fork_of (i + j))
        = match agents[j]? with
          | some a => if a.is_alive = false then 1 else 0
          | none => 0 := by
  induction agents with
  | nil =>
    intro i k cb r h j
    rw [check_loop] at h
    rw [← Option.some.inj h]
    rfl
  | cons x rest ih =>
    intro i k cb r h j
    rcases check_loop_cons_cases fork i k cb x rest r h with
      ⟨hx, r1, hr1, rfl⟩ | ⟨hx, hp, r1, hr1, rfl⟩ | ⟨hx, hp, r1, hr1, rfl⟩
        | ⟨hx, hp, r1, hr1, rfl⟩
    · cases j with
      | zero =>
        have := check_loop_no_fork_below fork rest (i + 1) k cb r1 hr1 i (by omega)
        simp [hx, this]
      | succ j =>
        have := ih (i + 1) k cb r1 hr1 j
        have hidx : i + (j + 1) = i + 1 + j := by omega
        simp only [hidx, this, List.getElem?_cons_succ]
    · cases j with
      | zero =>
        have := check_loop_no_fork_below fork rest (i + 1) (k + 1) _ r1 hr1 i (by omega)
        simp [hx, this, List.countP_cons, Event.is_fork_of]
      | succ j =>
        have := ih (i + 1) (k + 1) _ r1 hr1 j
        have hidx : i + (j + 1) = i + 1 + j := by omega
        have hne : ¬ i = i + 1 + j := by omega
        simp [hidx, this, List.countP_cons, Event.is_fork_of, hne]
    · cases j with
      | zero =>
        have := check_loop_no_fork_below fork rest (i + 1) (k + 1) _ r1 hr1 i (by omega)
        simp [hx, this, List.countP_cons, Event.is_fork_of]
      | succ j =>
        have := ih (i + 1) (k + 1) _ r1 hr1 j
        have hidx : i + (j + 1) = i + 1 + j := by omega
        have hne : ¬ i = i + 1 + j := by omega
        simp [hidx, this, List.countP_cons, Event.is_fork_of, hne]
    · cases j with
      | zero =>
        have := check_loop_no_fork_below fork rest (i + 1) (k + 1) _ r1 hr1 i (by omega)
        simp [hx, this, List.countP_cons, Event.is_fork_of]
      | succ j =>
        have := ih (i + 1) (k + 1) _ r1 hr1 j
        have hidx : i + (j + 1) = i + 1 + j := by omega
        have hne : ¬ i = i + 1 + j := by omega
        simp [hidx, this, List.countP_cons, Event.is_fork_of, hne]

theorem check_loop_fork_event (fork : Nat → Int) (agents : List BaseAgent) :
    ∀ (i k : Nat) (cb : OpenraspCtrlBlock) (r : CheckResult),
      check_loop fork i k (some cb) agents = some r →
      ∀ (j : Nat) (a : BaseAgent), agents[j]? = some a → a.is_alive = false →
        Event.fork_agent (i + j) (fork (k + forks_before agents j)) ∈ r.events := by
  induction agents with
  | nil => intro i k cb r _ j a hj; simp at hj
  | cons x rest ih =>
    intro i k cb r h j a hj ha
    rcases check_loop_cons_cases fork i k cb x rest r h with
      ⟨hx, r1, hr1, rfl⟩ | ⟨hx, hp, r1, hr1, rfl⟩ | ⟨hx, hp, r1, hr1, rfl⟩
        | ⟨hx, hp, r1, hr1, rfl⟩
    · cases j with
      | zero =>
        simp only [List.getElem?_cons_zero, Option.some.injEq] at hj
        subst hj
        rw [hx] at ha
        cases ha
      | succ j =>
        simp only [List.getElem?_cons_succ] at hj
        have := ih (i + 1) k cb r1 hr1 j a hj ha
        have hidx : i + (j + 1) = i + 1 + j := by omega
        simpa [hidx, forks_before_cons_succ, hx] using this
    all_goals
      cases j with
      | zero => simp [forks_before_zero]
      | succ j =>
        simp only [List.getElem?_cons_succ] at hj
        have := ih (i + 1) (k + 1) _ r1 hr1 j a hj ha
        have hidx : i + (j + 1) = i + 1 + j := by omega
        have hk : k + (1 + forks_before rest j) = k + 1 + forks_before rest j := by omega
        simp only [hidx, forks_before_cons_succ, hx, if_true, hk]
        simp [this]

theorem agent_id_of_write_same (kind : AgentKind) (pid : Int) (cb : OpenraspCtrlBlock) :
    agent_id_of kind (write_pid_to_shm kind pid cb) = pid := by
  cases kind <;> rfl

theorem agent_id_of_write_other (kind other : AgentKind) (pid : Int) (cb : OpenraspCtrlBlock)
    (h : other ≠ kind) :
    agent_id_of kind (write_pid_to_shm other pid cb) = agent_id_of kind cb := by
  cases kind <;> cases other <;> first | rfl | exact absurd rfl h

/-- A scan leaves the control-block field of a kind alone when no agent it
visits has that kind. -/
theorem check_loop_block_frame (fork : Nat → Int) (agents : List BaseAgent) :
    ∀ (i k : Nat) (cb : OpenraspCtrlBlock) (r : CheckResult) (cb1 : OpenraspCtrlBlock),
      check_loop fork i k (some cb) agents = some r → r.block = some cb1 →
      ∀ kind, (∀ b ∈ agents, b.kind ≠ kind) → agent_id_of kind cb1 = agent_id_of kind cb := by
  induction agents with
  | nil =>
    intro i k cb r cb1 h hb kind _
    rw [check_loop] at h
    rw [← Option.some.inj h] at hb
    rw [Option.some.inj hb]
  | cons x rest ih =>
    intro i k cb r cb1 h hb kind hkind
    have hrest : ∀ b ∈ rest, b.kind ≠ kind := fun b hb' => hkind b (List.mem_cons_of_mem x hb')
    rcases check_loop_cons_cases fork i k cb x rest r h with
      ⟨hx, r1, hr1, rfl⟩ | ⟨hx, hp, r1, hr1, rfl⟩ | ⟨hx, hp, r1, hr1, rfl⟩
        | ⟨hx, hp, r1, hr1, rfl⟩
    · exact ih (i + 1) k cb r1 cb1 hr1 hb kind hrest
    · rw [ih (i + 1) (k + 1) _ r1 cb1 hr1 hb kind hrest]
      exact agent_id_of_write_other kind x.kind (fork k) cb (hkind x (List.mem_cons_self x rest))
    · exact ih (i + 1) (k + 1) cb r1 cb1 hr1 hb kind hrest
    · exact ih (i + 1) (k + 1) cb r1 cb1 hr1 hb kind hrest

/-- The pid of a respawned agent is what the control block holds for its
kind after the scan, unless a later slot of the same kind exists. -/
theorem check_loop_block_records (fork : Nat → Int) (agents : List BaseAgent) :
    ∀ (i k : Nat) (cb : OpenraspCtrlBlock) (r : CheckResult) (cb1 : OpenraspCtrlBlock),
      check_loop fork i k (some cb) agents = some r → r.block = some cb1 →
      ∀ (j : Nat) (a : BaseAgent), agents[j]? = some a → a.is_alive = false →
        fork (k + forks_before agents j) > 0 →
        (∀ (j1 : Nat) (b : BaseAgent), j < j1 → agents[j1]? = some b → b.kind ≠ a.kind) →
        agent_id_of a.kind cb1 = fork (k + forks_before agents j) := by
  induction agents with
  | nil => intro i k cb r cb1 _ _ j a hj; simp at hj
  | cons x rest ih =>
    intro i k cb r cb1 h hb j a hj ha hpos hlater
    cases j with
    | zero =>
      simp only [List.getElem?_cons_zero, Option.some.injEq] at hj
      subst hj
      simp only [forks_before_zero, Nat.add_zero] at hpos ⊢
      have hrest : ∀ b ∈ rest, b.kind ≠ x.kind := by
        intro b hbm
        obtain ⟨n, hn⟩ := List.getElem?_of_mem hbm
        exact hlater (n + 1) b (by omega) (by simpa using hn)
      rcases check_loop_cons_cases fork i k cb x rest r h with
        ⟨hx, r1, hr1, rfl⟩ | ⟨hx, hp, r1, hr1, rfl⟩ | ⟨hx, hp, r1, hr1, rfl⟩
          | ⟨hx, hp, r1, hr1, rfl⟩
      · rw [hx] at ha; cases ha
      · rw [check_loop_block_frame fork rest (i + 1) (k + 1) _ r1 cb1 hr1 hb x.kind hrest]
        exact agent_id_of_write_same x.kind (fork k) cb
      · omega
      · omega
    | succ j =>
      simp only [List.getElem?_cons_succ] at hj
      have hlater1 : ∀ (j1 : Nat) (b : BaseAgent), j < j1 → rest[j1]? = some b →
          b.kind ≠ a.kind :=
        fun j1 b hlt hb1 => hlater (j1 + 1) b (by omega) (by simpa using hb1)
      rw [forks_before_cons_succ] at hpos ⊢
      rcases check_loop_cons_cases fork i k cb x rest r h with
        ⟨hx, r1, hr1, rfl⟩ | ⟨hx, hp, r1, hr1, rfl⟩ | ⟨hx, hp, r1, hr1, rfl⟩
          | ⟨hx, hp, r1, hr1, rfl⟩
      · simp only [hx, Bool.true_eq_false, if_false, Nat.zero_add] at hpos ⊢
        exact ih (i + 1) k cb r1 cb1 hr1 hb j a hj ha hpos hlater1
      all_goals
        simp only [hx, if_true] at hpos ⊢
        have hk : k + (1 + forks_before rest j) = k + 1 + forks_before rest j := by omega
        rw [hk] at hpos ⊢
        exact ih (i + 1) (k + 1) _ r1 cb1 hr1 hb j a hj ha hpos hlater1

/-- A liveness scan over an agent set satisfying `agents_ok` keeps the
control-block invariant. -/
theorem check_loop_block_ok (cfg : Config) (fork : Nat → Int) (agents : List BaseAgent)
    (hags : agents_ok cfg agents) (i k : Nat) (cb : OpenraspCtrlBlock) (r : CheckResult)
    (cb1 : OpenraspCtrlBlock) (h : check_loop fork i k (some cb) agents = some r)
    (hb : r.block = some cb1) (hok : block_ok cfg cb) : block_ok cfg cb1 := by
  obtain ⟨r0, cb0, hr0, hb0, _, hm, _⟩ := check_loop_some fork agents i k cb
  rw [hr0] at h
  have hr : r0 = r := Option.some.inj h
  rw [hr, hb] at hb0
  have hcb : cb1 = cb0 := Option.some.inj hb0
  refine ⟨?_, ?_⟩
  · rw [hcb, hm]; exact hok.1
  · intro hp
    have hframe := check_loop_block_frame fork agents i k cb r cb1 (hr ▸ hr0) hb
      AgentKind.heartbeat (hags hp)
    have hle := hok.2 hp
    have : cb1.plugin_agent_id = cb.plugin_agent_id := hframe
    rw [this]
    exact hle

theorem mark_agents_dead_getElem (p : Int) (agents : List BaseAgent) (j : Nat)
    (a : BaseAgent) (hj : agents[j]? = some a) :
    (mark_agents_dead p agents)[j]?
      = some (if p = a.agent_pid then { a with is_alive := false } else a) := by
  simp [mark_agents_dead, List.getElem?_map, hj]

/-- The handler marks exactly the agents whose pid was reaped. -/
theorem supervisor_sigchld_handler_getElem (ws : List Int) :
    ∀ (agents : List BaseAgent) (j : Nat) (a : BaseAgent), agents[j]? = some a →
      (supervisor_sigchld_handler ws agents)[j]?
        = some (if a.agent_pid ∈ ws.takeWhile (fun p => decide (p > 0))
                then { a with is_alive := false } else a) := by
  induction ws with
  | nil => intro agents j a hj; simp [supervisor_sigchld_handler, hj]
  | cons p ws ih =>
    intro agents j a hj
    rw [supervisor_sigchld_handler]
    by_cases hp : p > 0
    · rw [if_pos hp, ih (mark_agents_dead p agents) j _ (mark_agents_dead_getElem p agents j a hj)]
      simp only [List.takeWhile_cons, hp, decide_True, if_true, List.mem_cons]
      by_cases he : p = a.agent_pid
      · simp [he]
      · have he1 : ¬ a.agent_pid = p := fun h => he h.symm
        simp [he, he1]
    · rw [if_neg hp]
      simp [List.takeWhile_cons, hp, hj]

theorem supervisor_sigchld_handler_length (ws : List Int) :
    ∀ agents : List BaseAgent,
      (supervisor_sigchld_handler ws agents).length = agents.length := by
  induction ws with
  | nil => intro agents; rfl
  | cons p ws ih =>
    intro agents
    rw [supervisor_sigchld_handler]
    by_cases hp : p > 0
    · rw [if_pos hp, ih]; simp [mark_agents_dead]
    · rw [if_neg hp]

/-- C8: after `supervisor_sigchld_handler` has reaped pids, every agent
whose `agent_pid` is one of them has `is_alive == false` and every other
agent is unchanged; and one run of `check_work_processes_survival` issues
exactly one `fork()` for each agent that is not alive and none for an agent
that is alive, leaves alive agents untouched, and for a fork that succeeded
sets the agent's `is_alive` to true and its `agent_pid` to the new pid and
records that pid in the control block (the field of the agent's kind holds
it after the run, no later slot sharing the kind), while an agent whose fork
did not succeed stays as it was, not alive. -/
theorem respawn_exactly_once (fork : Nat → Int) (ws : List Int) (s : State)
    (cb : OpenraspCtrlBlock) (hcb : s.agent_ctrl_block = some cb) :
    (supervisor_sigchld_handler ws s.agents).length = s.agents.length
    ∧ (∀ (j : Nat) (a : BaseAgent), s.agents[j]? = some a →
        (supervisor_sigchld_handler ws s.agents)[j]?
          = some (if a.agent_pid ∈ ws.takeWhile (fun p => decide (p > 0))
                  then { a with is_alive := false } else a))
    ∧ ∃ s1 cb1 events,
        check_work_processes_survival fork s = some s1
        ∧ s1.agent_ctrl_block = some cb1
        ∧ s1.trace = s.trace ++ events
        ∧ s1.agents.length = s.agents.length
        ∧ (∀ j, events.countP (Event.is_fork_of j)
            = match s.agents[j]? with
              | some a => if a.is_alive = false then 1 else 0
              | none => 0)
        ∧ (∀ (j : Nat) (a : BaseAgent), s.agents[j]? = some a → a.is_alive = true →
            s1.agents[j]? = some a)
        ∧ (∀ (j : Nat) (a : BaseAgent), s.agents[j]? = some a → a.is_alive = false →
            Event.fork_agent j (fork (forks_before s.agents j)) ∈ events
            ∧ (fork (forks_before s.agents j) > 0 →
                s1.agents[j]? = some { a with is_alive := true,
                                              agent_pid := fork (forks_before s.agents j) }
                ∧ ((∀ (j1 : Nat) (b : BaseAgent), j < j1 → s.agents[j1]? = some b →
                      b.kind ≠ a.kind) →
                    agent_id_of a.kind cb1 = fork (forks_before s.agents j)))
            ∧ (¬ fork (forks_before s.agents j) > 0 → s1.agents[j]? = some a)) := by
  refine ⟨supervisor_sigchld_handler_length ws s.agents,
    supervisor_sigchld_handler_getElem ws s.agents, ?_⟩
  obtain ⟨r, cb1, hr, hb, hl, _, _⟩ := check_loop_some fork s.agents 0 0 cb
  refine ⟨{ s with agents := r.agents, agent_ctrl_block := r.block,
                   trace := s.trace ++ r.events }, cb1, r.events, ?_, hb, rfl, hl, ?_, ?_, ?_⟩
  · unfold check_work_processes_survival
    rw [hcb, hr]
  · intro j
    have := check_loop_fork_count fork s.agents 0 0 cb r hr j
    simpa using this
  · intro j a hj ha
    have := check_loop_agents fork s.agents 0 0 cb r hr j a hj
    simpa [ha] using this
  · intro j a hj ha
    have hag := check_loop_agents fork s.agents 0 0 cb r hr j a hj
    have hev := check_loop_fork_event fork s.agents 0 0 cb r hr j a hj ha
    simp only [Nat.zero_add] at hag hev
    refine ⟨hev, ?_, ?_⟩
    · intro hpos
      refine ⟨by simpa [ha, hpos] using hag, ?_⟩
      intro hlater
      have := check_loop_block_records fork s.agents 0 0 cb r cb1 hr hb j a hj ha
        (by simpa using hpos) hlater
      simpa using this
    · intro hneg
      simpa [ha, hneg] using hag

/-- On the sample supervisor the scan forks once, for the log agent in slot
1, which comes back alive with pid 40, recorded in the control block; the
heartbeat agent is not forked. -/
theorem respawn_exactly_once_witness :
    check_work_processes_survival sample_fork sample_supervisor
      = some { sample_supervisor with
          agents := [ { kind := AgentKind.heartbeat, is_alive := true, agent_pid := 33 },
                      { kind := AgentKind.log, is_alive := true, agent_pid := 40 } ],
          agent_ctrl_block := some { sample_block with log_agent_id := 40 },
          trace := [Event.fork_agent 1 40] }
    ∧ (supervisor_sigchld_handler [33, 0] sample_supervisor.agents).length = 2 := by
  have h := respawn_exactly_once sample_fork [33, 0] sample_supervisor sample_block rfl
  exact ⟨by decide, h.1⟩

theorem scans_append (t u : List Event) : scans (t ++ u) = scans t + scans u := by
  simp [scans, List.count_append]

theorem agent_forks_append (t u : List Event) :
    agent_forks (t ++ u) = agent_forks t + agent_forks u := by
  simp [agent_forks, List.countP_append]

theorem scans_shutdown_kills (cfg : Config) (cb : OpenraspCtrlBlock) :
    scans (shutdown_kills cfg cb) = 0 := by
  unfold shutdown_kills scans
  rw [List.count_eq_zero]
  intro hmem
  simp only [List.mem_append] at hmem
  rcases hmem with (h | h) | h
  · split at h <;> simp at h
  · split at h
    · split at h <;> simp at h
    · simp at h
  · split at h <;> simp at h

theorem agent_forks_shutdown_kills (cfg : Config) (cb : OpenraspCtrlBlock) :
    agent_forks (shutdown_kills cfg cb) = 0 := by
  unfold shutdown_kills agent_forks
  rw [List.countP_eq_zero]
  intro e hmem
  simp only [List.mem_append] at hmem
  rcases hmem with (h | h) | h
  · split at h <;> simp at h
    subst h; simp [Event.is_fork_agent]
  · split at h
    · split at h <;> simp at h
      subst h; simp [Event.is_fork_agent]
    · simp at h
  · split at h <;> simp at h
    subst h; simp [Event.is_fork_agent]

theorem quiet_extend (t0 t1 : List Event) (e : Event)
    (h : ∃ evs, t1 = t0 ++ evs ∧ scans evs = 0 ∧ agent_forks evs = 0)
    (hs : scans [e] = 0) (hf : agent_forks [e] = 0) :
    ∃ evs, t1 ++ [e] = t0 ++ evs ∧ scans evs = 0 ∧ agent_forks evs = 0 := by
  obtain ⟨evs, ht, h1, h2⟩ := h
  refine ⟨evs ++ [e], by rw [ht, List.append_assoc], ?_, ?_⟩
  · rw [scans_append, h1, hs]
  · rw [agent_forks_append, h2, hf]

/-- A registration attempt touches neither the agents nor the control
block, and records neither a liveness scan nor a fork. -/
theorem agent_remote_register_frame (ext : Externals) (cfg : Config) (env : RegisterEnv)
    (s : State) :
    (agent_remote_register ext cfg env s).2.agents = s.agents
    ∧ (agent_remote_register ext cfg env s).2.agent_ctrl_block = s.agent_ctrl_block
    ∧ ∃ evs, (agent_remote_register ext cfg env s).2.trace = s.trace ++ evs
        ∧ scans evs = 0 ∧ agent_forks evs = 0 := by
  have q0 : ∃ evs, s.trace ++ [Event.fetch_source_in_ip_packets] = s.trace ++ evs
      ∧ scans evs = 0 ∧ agent_forks evs = 0 := ⟨_, rfl, rfl, rfl⟩
  have q1 := quiet_extend _ _ Event.curl_easy_init q0 rfl rfl
  have q2 := fun url body => quiet_extend _ _ (Event.perform_curl url body) q1 rfl rfl
  unfold agent_remote_register calculate_rasp_id
  cases hip : env.fetch_source_in_ip_packets <;>
    cases hhw : env.fetch_hw_addrs.isEmpty <;>
      cases hcurl : env.curl_easy_init <;>
        first
          | exact ⟨rfl, rfl, q0⟩
          | exact ⟨rfl, rfl, q1⟩
          | exact ⟨rfl, rfl, q2 _ _⟩

theorem register_step_frame (ext : Externals) (cfg : Config) (env : TickEnv) (i : Nat)
    (s : State) :
    (register_step ext cfg env i s).agents = s.agents
    ∧ (register_step ext cfg env i s).agent_ctrl_block = s.agent_ctrl_block
    ∧ ∃ evs, (register_step ext cfg env i s).trace = s.trace ++ evs
        ∧ scans evs = 0 ∧ agent_forks evs = 0 := by
  unfold register_step
  by_cases h : i % cfg.task_interval = 0 ∧ s.has_registered = false
  · rw [if_pos h]
    obtain ⟨ha, hb, evs, ht, hs, hf⟩ := agent_remote_register_frame ext cfg env.register
      { s with trace := s.trace ++ [Event.agent_remote_register] }
    refine ⟨ha, hb, Event.agent_remote_register :: evs, ?_, ?_, ?_⟩
    · simp only [ht, List.append_assoc, List.singleton_append]
    · have := scans_append [Event.agent_remote_register] evs
      simp only [List.singleton_append] at this
      rw [this, hs]; rfl
    · have := agent_forks_append [Event.agent_remote_register] evs
      simp only [List.singleton_append] at this
      rw [this, hf]; rfl
  · rw [if_neg h]
    exact ⟨rfl, rfl, [], by simp, rfl, rfl⟩

theorem register_step_registered (ext : Externals) (cfg : Config) (env : TickEnv) (i : Nat)
    (s : State) (h : s.has_registered = true) : register_step ext cfg env i s = s := by
  unfold register_step
  simp [h]

theorem register_step_not_due (ext : Externals) (cfg : Config) (env : TickEnv) (i : Nat)
    (s : State) (h : i % cfg.task_interval ≠ 0) : register_step ext cfg env i s = s := by
  unfold register_step
  simp [h]

theorem check_loop_scans (fork : Nat → Int) (agents : List BaseAgent) :
    ∀ (i k : Nat) (cb : OpenraspCtrlBlock) (r : CheckResult),
      check_loop fork i k (some cb) agents = some r → scans r.events = 0 := by
  induction agents with
  | nil =>
    intro i k cb r h
    rw [check_loop] at h
    rw [← Option.some.inj h]
    rfl
  | cons x rest ih =>
    intro i k cb r h
    rcases check_loop_cons_cases fork i k cb x rest r h with
      ⟨hx, r1, hr1, rfl⟩ | ⟨hx, hp, r1, hr1, rfl⟩ | ⟨hx, hp, r1, hr1, rfl⟩
        | ⟨hx, hp, r1, hr1, rfl⟩
    · exact ih (i + 1) k cb r1 hr1
    · have := ih (i + 1) (k + 1) _ r1 hr1
      simpa [scans, List.count_cons] using this
    · have := ih (i + 1) (k + 1) _ r1 hr1
      simpa [scans, List.count_cons] using this
    · have := ih (i + 1) (k + 1) _ r1 hr1
      simpa [scans, List.count_cons] using this

theorem check_work_processes_survival_spec (fork : Nat → Int) (s : State)
    (cb : OpenraspCtrlBlock) (hcb : s.agent_ctrl_block = some cb) :
    ∃ s1 cb1 evs, check_work_processes_survival fork s = some s1
      ∧ s1.agent_ctrl_block = some cb1
      ∧ cb1.master_pid = cb.master_pid
      ∧ s1.has_registered = s.has_registered
      ∧ s1.trace = s.trace ++ evs
      ∧ scans evs = 0
      ∧ (s.agents = [] → s1.agents = [] ∧ evs = []) := by
  obtain ⟨r, cb1, hr, hb, _, hm, _⟩ := check_loop_some fork s.agents 0 0 cb
  refine ⟨{ s with agents := r.agents, agent_ctrl_block := r.block,
                   trace := s.trace ++ r.events }, cb1, r.events, ?_, hb, hm, rfl, rfl,
    check_loop_scans fork s.agents 0 0 cb r hr, ?_⟩
  · unfold check_work_processes_survival
    rw [hcb, hr]
  · intro hnil
    rw [hnil, check_loop] at hr
    rw [← Option.some.inj hr]
    exact ⟨rfl, rfl⟩

theorem survival_step_spec (env : TickEnv) (i : Nat) (s : State)
    (cb : OpenraspCtrlBlock) (hcb : s.agent_ctrl_block = some cb) :
    ∃ s1 cb1 evs, survival_step env i s = some s1
      ∧ s1.agent_ctrl_block = some cb1
      ∧ cb1.master_pid = cb.master_pid
      ∧ s1.has_registered = s.has_registered
      ∧ s1.trace = s.trace ++ evs
      ∧ scans evs = (if i % 10 = 0 ∧ s.has_registered = true then 1 else 0)
      ∧ (s.has_registered = false → s1 = s ∧ evs = [])
      ∧ (s.agents = [] → s1.agents = [] ∧ agent_forks evs = 0) := by
  unfold survival_step
  by_cases h : i % 10 = 0 ∧ s.has_registered = true
  · rw [if_pos h]
    obtain ⟨s1, cb1, evs, h1, h2, h3, h4, h5, h6, h7⟩ :=
      check_work_processes_survival_spec env.fork
        { s with trace := s.trace ++ [Event.check_work_processes_survival] } cb hcb
    refine ⟨s1, cb1, Event.check_work_processes_survival :: evs, h1, h2, h3, h4, ?_, ?_, ?_, ?_⟩
    · rw [h5]; simp
    · have := scans_append [Event.check_work_processes_survival] evs
      simp only [List.singleton_append] at this
      rw [this, h6, if_pos h]; rfl
    · intro hf; rw [h.2] at hf; cases hf
    · intro hnil
      obtain ⟨ha, he⟩ := h7 hnil
      exact ⟨ha, by rw [he]; rfl⟩
  · rw [if_neg h]
    refine ⟨s, cb, [], rfl, hcb, rfl, rfl, by simp, by rw [if_neg h]; rfl, fun _ => ⟨rfl, rfl⟩,
      fun hnil => ⟨hnil, rfl⟩⟩

theorem supervisor_sigchld_handler_nil (ws : List Int) :
    supervisor_sigchld_handler ws [] = [] := by
  induction ws with
  | nil => rfl
  | cons p ws ih =>
    rw [supervisor_sigchld_handler]
    by_cases hp : p > 0
    · rw [if_pos hp]; exact ih
    · rw [if_neg hp]

theorem master_step_spec (cfg : Config) (env : TickEnv) (s : State)
    (cb : OpenraspCtrlBlock) (hcb : s.agent_ctrl_block = some cb) :
    ∃ s1, master_step cfg env s = some s1
      ∧ s1.agent_ctrl_block = some cb
      ∧ s1.has_registered = s.has_registered
      ∧ s1.trace = s.trace ++ [Event.sleep]
          ++ (if env.stat_proc cb.master_pid = StatResult.enoent
              then shutdown_kills cfg cb else [])
      ∧ s1.agents = (if env.stat_proc cb.master_pid = StatResult.enoent then []
                     else supervisor_sigchld_handler env.waitpid s.agents) := by
  unfold master_step
  simp only [hcb, OpenraspCtrlBlock.get_master_pid]
  by_cases h : env.stat_proc cb.master_pid = StatResult.enoent
  · rw [if_pos h]
    unfold process_agent_shutdown
    simp only [hcb]
    exact ⟨_, rfl, rfl, rfl, by simp [h], by simp [h]⟩
  · rw [if_neg h]
    exact ⟨_, rfl, rfl, rfl, by simp [h], by simp [h]⟩

theorem scans_teardown (cfg : Config) (cb : OpenraspCtrlBlock) (c : Prop) [Decidable c] :
    scans (if c then shutdown_kills cfg cb else []) = 0 := by
  split
  · exact scans_shutdown_kills cfg cb
  · rfl

theorem agent_forks_teardown (cfg : Config) (cb : OpenraspCtrlBlock) (c : Prop)
    [Decidable c] :
    agent_forks (if c then shutdown_kills cfg cb else []) = 0 := by
  split
  · exact agent_forks_shutdown_kills cfg cb
  · rfl

/-- What one pass through the loop body does, step by step. -/
theorem supervisor_tick_spec (ext : Externals) (cfg : Config) (env : TickEnv) (i : Nat)
    (s : State) (cb : OpenraspCtrlBlock) (hcb : s.agent_ctrl_block = some cb) :
    ∃ s1 cb1 before, supervisor_tick ext cfg env i s = some s1
      ∧ s1.agent_ctrl_block = some cb1
      ∧ cb1.master_pid = cb.master_pid
      ∧ s1.has_registered = (register_step ext cfg env i s).has_registered
      ∧ s1.trace = s.trace ++ before
          ++ (if env.stat_proc cb.master_pid = StatResult.enoent
              then shutdown_kills cfg cb1 else [])
      ∧ scans before
          = (if i % 10 = 0 ∧ (register_step ext cfg env i s).has_registered = true
             then 1 else 0)
      ∧ ((register_step ext cfg env i s).has_registered = false → agent_forks before = 0)
      ∧ (s.agents = [] → agent_forks before = 0)
      ∧ (env.stat_proc cb.master_pid = StatResult.enoent → s1.agents = [])
      ∧ (s.agents = [] → s1.agents = []) := by
  obtain ⟨hra, hrb, e1, hrt, hrs, hrf⟩ := register_step_frame ext cfg env i s
  obtain ⟨s2, cb1, e2, h2, h2b, h2m, h2r, h2t, h2s, h2u, h2n⟩ :=
    survival_step_spec env i (register_step ext cfg env i s) cb (hrb.trans hcb)
  obtain ⟨s3, h3, h3b, h3r, h3t, h3a⟩ := master_step_spec cfg env s2 cb1 h2b
  rw [h2m] at h3t h3a
  refine ⟨s3, cb1, e1 ++ e2 ++ [Event.sleep], ?_, h3b, h2m, h3r.trans h2r, ?_, ?_, ?_, ?_, ?_, ?_⟩
  · unfold supervisor_tick
    rw [h2]
    exact h3
  · rw [h3t, h2t, hrt]
    simp only [List.append_assoc]
  · rw [scans_append, scans_append, hrs, h2s]
    simp [scans]
  · intro hreg
    rw [agent_forks_append, agent_forks_append, hrf, (h2u hreg).2]
    rfl
  · intro hnil
    rw [agent_forks_append, agent_forks_append, hrf, (h2n (hra.trans hnil)).2]
    rfl
  · intro hstat
    rw [h3a, if_pos hstat]
  · intro hnil
    rw [h3a]
    split
    · rfl
    · rw [(h2n (hra.trans hnil)).1]
      exact supervisor_sigchld_handler_nil env.waitpid

/-- Once the agent set is empty, no pass through the loop body forks. -/
theorem supervisor_ticks_no_agents (ext : Externals) (cfg : Config)
    (later : List (TickEnv × Nat)) :
    ∀ (s : State) (cb : OpenraspCtrlBlock), s.agent_ctrl_block = some cb → s.agents = [] →
      ∃ s2 cb2, supervisor_ticks ext cfg later s = some s2
        ∧ s2.agent_ctrl_block = some cb2
        ∧ s2.agents = []
        ∧ agent_forks s2.trace = agent_forks s.trace := by
  induction later with
  | nil => intro s cb hcb hnil; exact ⟨s, cb, rfl, hcb, hnil, rfl⟩
  | cons t ts ih =>
    intro s cb hcb hnil
    obtain ⟨s1, cb1, before, h1, h1b, _, _, h1t, _, _, h1f, _, h1n⟩ :=
      supervisor_tick_spec ext cfg t.1 t.2 s cb hcb
    obtain ⟨s2, cb2, h2, h2b, h2n, h2f⟩ := ih s1 cb1 h1b (h1n hnil)
    refine ⟨s2, cb2, ?_, h2b, h2n, ?_⟩
    · rw [supervisor_ticks, h1]
      exact h2
    · rw [h2f, h1t, agent_forks_append, agent_forks_append, h1f hnil, agent_forks_teardown]
      rfl

theorem supervisor_ticks_unregistered (ext : Externals) (cfg : Config)
    (ticks : List (TickEnv × Nat)) :
    ∀ (s : State) (cb : OpenraspCtrlBlock), s.agent_ctrl_block = some cb →
      s.has_registered = false → (∀ t ∈ ticks, t.2 % cfg.task_interval ≠ 0) →
      ∃ s1 cb1, supervisor_ticks ext cfg ticks s = some s1
        ∧ s1.agent_ctrl_block = some cb1
        ∧ s1.has_registered = false
        ∧ scans s1.trace = scans s.trace
        ∧ agent_forks s1.trace = agent_forks s.trace := by
  induction ticks with
  | nil => intro s cb hcb hreg _; exact ⟨s, cb, rfl, hcb, hreg, rfl, rfl⟩
  | cons t ts ih =>
    intro s cb hcb hreg hdue
    have hstep : register_step ext cfg t.1 t.2 s = s :=
      register_step_not_due ext cfg t.1 t.2 s (hdue t (List.mem_cons_self t ts))
    obtain ⟨s1, cb1, before, h1, h1b, _, h1r, h1t, h1s, h1u, _, _, _⟩ :=
      supervisor_tick_spec ext cfg t.1 t.2 s cb hcb
    rw [hstep] at h1r h1s h1u
    obtain ⟨s2, cb2, h2, h2b, h2r, h2s, h2f⟩ :=
      ih s1 cb1 h1b (h1r.trans hreg) (fun t1 ht1 => hdue t1 (List.mem_cons_of_mem t ht1))
    refine ⟨s2, cb2, ?_, h2b, h2r, ?_, ?_⟩
    · rw [supervisor_ticks, h1]
      exact h2
    · rw [h2s, h1t, scans_append, scans_append, h1s]
      have : ¬ (t.2 % 10 = 0 ∧ s.has_registered = true) := by
        rw [hreg]; simp
      rw [if_neg this, scans_teardown]
      rfl
    · rw [h2f, h1t, agent_forks_append, agent_forks_append, h1u hreg, agent_forks_teardown]
      rfl

theorem supervisor_ticks_registered (ext : Externals) (cfg : Config)
    (ticks : List (TickEnv × Nat)) :
    ∀ (s : State) (cb : OpenraspCtrlBlock), s.agent_ctrl_block = some cb →
      s.has_registered = true →
      ∃ s1 cb1, supervisor_ticks ext cfg ticks s = some s1
        ∧ s1.agent_ctrl_block = some cb1
        ∧ s1.has_registered = true
        ∧ scans s1.trace
            = scans s.trace + ticks.countP (fun t => decide (t.2 % 10 = 0)) := by
  induction ticks with
  | nil => intro s cb hcb hreg; exact ⟨s, cb, rfl, hcb, hreg, rfl⟩
  | cons t ts ih =>
    intro s cb hcb hreg
    have hstep : register_step ext cfg t.1 t.2 s = s :=
      register_step_registered ext cfg t.1 t.2 s hreg
    obtain ⟨s1, cb1, before, h1, h1b, _, h1r, h1t, h1s, _, _, _, _⟩ :=
      supervisor_tick_spec ext cfg t.1 t.2 s cb hcb
    rw [hstep] at h1r h1s
    obtain ⟨s2, cb2, h2, h2b, h2r, h2s⟩ := ih s1 cb1 h1b (h1r.trans hreg)
    refine ⟨s2, cb2, ?_, h2b, h2r, ?_⟩
    · rw [supervisor_ticks, h1]
      exact h2
    · rw [h2s, h1t, scans_append, scans_append, h1s, scans_teardown, List.countP_cons]
      by_cases h10 : t.2 % 10 = 0
      · simp [h10, hreg]; omega
      · simp [h10]

theorem cycle_ticks_succ (cfg : Config) (envs : Nat → TickEnv) (n : Nat)
    (hn : cfg.task_interval = n + 1) :
    cycle_ticks cfg envs
      = (envs 0, 0) :: (List.range n).map (fun i => (envs (i + 1), i + 1)) := by
  unfold cycle_ticks
  rw [hn, List.range_succ_eq_map]
  simp [List.map_map, Function.comp_def]

theorem supervisor_ticks_once_registered (ext : Externals) (cfg : Config)
    (t : TickEnv × Nat) (ts : List (TickEnv × Nat)) (s : State) (cb : OpenraspCtrlBlock)
    (hcb : s.agent_ctrl_block = some cb)
    (hreg : (register_step ext cfg t.1 t.2 s).has_registered = true) :
    ∃ s1, supervisor_ticks ext cfg (t :: ts) s = some s1
      ∧ s1.has_registered = true
      ∧ scans s1.trace
          = scans s.trace + (t :: ts).countP (fun t => decide (t.2 % 10 = 0)) := by
  obtain ⟨s1, cb1, before, h1, h1b, _, h1r, h1t, h1s, _, _, _, _⟩ :=
    supervisor_tick_spec ext cfg t.1 t.2 s cb hcb
  obtain ⟨s2, cb2, h2, _, h2r, h2s⟩ :=
    supervisor_ticks_registered ext cfg ts s1 cb1 h1b (h1r.trans hreg)
  refine ⟨s2, ?_, h2r, ?_⟩
  · rw [supervisor_ticks, h1]
    exact h2
  · rw [h2s, h1t, scans_append, scans_append, h1s, scans_teardown, List.countP_cons]
    by_cases h10 : t.2 % 10 = 0
    · simp [h10, hreg]; omega
    · simp [h10]

theorem cycle_ticks_countP (cfg : Config) (envs : Nat → TickEnv) :
    (cycle_ticks cfg envs).countP (fun t => decide (t.2 % 10 = 0))
      = (List.range cfg.task_interval).countP (fun i => decide (i % 10 = 0)) := by
  unfold cycle_ticks
  rw [List.countP_map]
  rfl

/-- An outer cycle that starts unregistered and whose registration attempt
fails runs no liveness scan and forks no agent. -/
theorem supervisor_cycle_unregistered (ext : Externals) (cfg : Config)
    (envs : Nat → TickEnv) (s : State) (cb : OpenraspCtrlBlock)
    (hcb : s.agent_ctrl_block = some cb) (hreg : s.has_registered = false)
    (hfail : (agent_remote_register ext cfg (envs 0).register
        { s with trace := s.trace ++ [Event.agent_remote_register] }).1 = false) :
    ∃ s1, supervisor_cycle ext cfg envs s = some s1
      ∧ s1.has_registered = false
      ∧ scans s1.trace = scans s.trace
      ∧ agent_forks s1.trace = agent_forks s.trace := by
  unfold supervisor_cycle
  cases hn : cfg.task_interval with
  | zero =>
    refine ⟨s, ?_, hreg, rfl, rfl⟩
    unfold cycle_ticks
    rw [hn]
    rfl
  | succ n =>
    rw [cycle_ticks_succ cfg envs n hn]
    have hstep : (register_step ext cfg (envs 0) 0 s).has_registered = false := by
      unfold register_step
      rw [if_pos ⟨Nat.zero_mod _, hreg⟩]
      exact hfail
    obtain ⟨s1, cb1, before, h1, h1b, _, h1r, h1t, h1s, h1u, _, _, _⟩ :=
      supervisor_tick_spec ext cfg (envs 0) 0 s cb hcb
    have hdue : ∀ t ∈ (List.range n).map (fun i => (envs (i + 1), i + 1)),
        t.2 % cfg.task_interval ≠ 0 := by
      intro t ht
      obtain ⟨j, hj, rfl⟩ := List.mem_map.mp ht
      have hlt : j < n := List.mem_range.mp hj
      simp only
      rw [hn, Nat.mod_eq_of_lt (by omega)]
      omega
    obtain ⟨s2, cb2, h2, _, h2r, h2s, h2f⟩ :=
      supervisor_ticks_unregistered ext cfg _ s1 cb1 h1b (h1r.trans hstep) hdue
    refine ⟨s2, ?_, h2r, ?_, ?_⟩
    · rw [supervisor_ticks]
      simp only [h1]
      exact h2
    · have hc : ¬ (0 % 10 = 0 ∧ (register_step ext cfg (envs 0) 0 s).has_registered = true) := by
        rw [hstep]; simp
      rw [h2s, h1t, scans_append, scans_append, h1s, if_neg hc, scans_teardown]
      rfl
    · rw [h2f, h1t, agent_forks_append, agent_forks_append, h1u hstep, agent_forks_teardown]
      rfl

/-- An outer cycle that is registered from its first pass on runs the
liveness scan once on every pass whose counter is a multiple of ten. -/
theorem supervisor_cycle_registered (ext : Externals) (cfg : Config)
    (envs : Nat → TickEnv) (s : State) (cb : OpenraspCtrlBlock)
    (hcb : s.agent_ctrl_block = some cb)
    (hreg : (register_step ext cfg (envs 0) 0 s).has_registered = true) :
    ∃ s1, supervisor_cycle ext cfg envs s = some s1
      ∧ (0 < cfg.task_interval → s1.has_registered = true)
      ∧ scans s1.trace
          = scans s.trace
            + (List.range cfg.task_interval).countP (fun i => decide (i % 10 = 0)) := by
  unfold supervisor_cycle
  rw [← cycle_ticks_countP cfg envs]
  cases hn : cfg.task_interval with
  | zero =>
    have hnil : cycle_ticks cfg envs = [] := by
      unfold cycle_ticks
      rw [hn]
      rfl
    rw [hnil]
    exact ⟨s, rfl, fun h => absurd h (Nat.lt_irrefl 0), rfl⟩
  | succ n =>
    rw [cycle_ticks_succ cfg envs n hn]
    obtain ⟨s1, h1, h1r, h1s⟩ := supervisor_ticks_once_registered ext cfg (envs 0, 0)
      ((List.range n).map (fun i => (envs (i + 1), i + 1))) s cb hcb hreg
    exact ⟨s1, h1, fun _ => h1r, h1s⟩

/-- C7: when a pass through the supervisor loop finds the `/proc` entry
of the control block's `master_pid` gone (`stat` fails with `ENOENT`), it
runs the teardown: the agent set is cleared and SIGKILL is sent, as the last
calls of the pass and in this order, to the log-agent pid, to the
heartbeat-agent pid if plugin update is enabled, and to the supervisor pid
held in the control block at that moment (each when positive); and whatever
passes follow, the agent set stays empty and no agent is forked. -/
theorem master_death_teardown (ext : Externals) (cfg : Config) (env : TickEnv) (i : Nat)
    (s : State) (cb : OpenraspCtrlBlock) (later : List (TickEnv × Nat))
    (hcb : s.agent_ctrl_block = some cb)
    (hstat : env.stat_proc cb.master_pid = StatResult.enoent) :
    ∃ s1 cb1 before, supervisor_tick ext cfg env i s = some s1
      ∧ s1.agent_ctrl_block = some cb1
      ∧ cb1.master_pid = cb.master_pid
      ∧ s1.agents = []
      ∧ s1.trace = s.trace ++ before
          ++ ((if cb1.log_agent_id > 0 then [Event.kill cb1.log_agent_id] else [])
            ++ (if cfg.plugin_update_enable = true ∧ cb1.plugin_agent_id > 0
                then [Event.kill cb1.plugin_agent_id] else [])
            ++ (if cb1.supervisor_id > 0 then [Event.kill cb1.supervisor_id] else []))
      ∧ ∃ s2, supervisor_ticks ext cfg later s1 = some s2
          ∧ s2.agents = []
          ∧ agent_forks s2.trace = agent_forks s1.trace := by
  obtain ⟨s1, cb1, before, h1, h1b, h1m, _, h1t, _, _, _, h1n, _⟩ :=
    supervisor_tick_spec ext cfg env i s cb hcb
  obtain ⟨s2, _, h2, _, h2n, h2f⟩ :=
    supervisor_ticks_no_agents ext cfg later s1 cb1 h1b (h1n hstat)
  refine ⟨s1, cb1, before, h1, h1b, h1m, h1n hstat, ?_, s2, h2, h2n, h2f⟩
  rw [h1t, if_pos hstat, shutdown_kills_eq]

/-- On the sample supervisor a pass that finds the master gone respawns the
log agent as process 40 first, then kills 40, 33 and 31 and clears the agent
set; a following cycle forks nothing. -/
theorem master_death_teardown_witness :
    supervisor_tick sample_externals sample_config sample_tick_env_master_gone 0
        sample_supervisor
      = some { sample_supervisor with
          agents := [],
          agent_ctrl_block := some { sample_block with log_agent_id := 40 },
          trace := [Event.check_work_processes_survival, Event.fork_agent 1 40, Event.sleep,
                    Event.kill 40, Event.kill 33, Event.kill 31] }
    ∧ ∃ s1 s2, supervisor_tick sample_externals sample_config sample_tick_env_master_gone 0
          sample_supervisor = some s1
        ∧ supervisor_ticks sample_externals sample_config
            (cycle_ticks sample_config (fun _ => sample_tick_env)) s1 = some s2
        ∧ s2.agents = []
        ∧ agent_forks s2.trace = agent_forks s1.trace := by
  refine ⟨by decide, ?_⟩
  obtain ⟨s1, _, _, h1, _, _, _, _, s2, h2, h2n, h2f⟩ :=
    master_death_teardown sample_externals sample_config sample_tick_env_master_gone 0
      sample_supervisor sample_block (cycle_ticks sample_config (fun _ => sample_tick_env))
      rfl rfl
  exact ⟨s1, s2, h1, h2, h2n, h2f⟩

theorem supervisor_ticks_append (ext : Externals) (cfg : Config)
    (ts us : List (TickEnv × Nat)) :
    ∀ s : State, supervisor_ticks ext cfg (ts ++ us) s
      = match supervisor_ticks ext cfg ts s with
        | none => none
        | some s1 => supervisor_ticks ext cfg us s1 := by
  induction ts with
  | nil => intro s; rfl
  | cons t ts ih =>
    intro s
    rw [List.cons_append, supervisor_ticks, supervisor_ticks]
    cases supervisor_tick ext cfg t.1 t.2 s with
    | none => rfl
    | some s1 => exact ih s1

/-- Any number of outer iterations of `supervisor_run` is a sequence of
passes through the loop body. -/
theorem supervisor_run_eq_ticks (ext : Externals) (cfg : Config)
    (envs : Nat → Nat → TickEnv) (n : Nat) :
    ∀ (c : Nat) (s : State),
      supervisor_run ext cfg envs n c s
        = supervisor_ticks ext cfg (run_ticks cfg envs n c) s := by
  induction n with
  | zero => intro c s; rfl
  | succ n ih =>
    intro c s
    rw [supervisor_run, run_ticks, supervisor_ticks_append]
    unfold supervisor_cycle
    cases supervisor_ticks ext cfg (cycle_ticks cfg (envs c)) s with
    | none => rfl
    | some s1 => exact ih (c + 1) s1

end OpenRasp
